import Mathlib

/-!
Shallow embedding of the LED-Rails backend (TypeScript sources `src/trainPairs.ts`,
`src/trackBlocks.ts`, `src/railNetwork.ts`) and proofs about the claims of its
specification.

Modelling conventions:
* JS `number` is modelled by `ℚ` (the program performs only field arithmetic on the
  values the claims are about); block numbers are `ℤ`.
* `undefined` is modelled by `Option`; JS truthiness of an optional number (`0` and
  `undefined` are falsy) and of an optional string (`""` and `undefined` are falsy)
  is made explicit via `numTruthy` / `strTruthy`.
* `NaN` produced by arithmetic on `undefined` is modelled by `none`; every JS
  comparison with `NaN` is false, which is reflected in the `opt…` comparison helpers.
* The Haversine distance `calculateDistance` is transcendental, so the whole
  development is parameterized over the distance function (`Dist`).
-/

namespace LedRails

/-- JS truthiness of an optional number: `undefined` and `0` are falsy. -/
def numTruthy : Option ℚ → Bool
  | some q => q != 0
  | none => false

/-- JS truthiness of an optional string: `undefined` and `""` are falsy. -/
def strTruthy : Option String → Bool
  | some s => s != ""
  | none => false

/-- JS `x > c` where `x` may be `NaN`/`undefined` (modelled `none`): false on `none`. -/
def optGt (x : Option ℚ) (c : ℚ) : Bool :=
  match x with
  | some v => v > c
  | none => false

/-- `Array.from(new Set(xs))`: removes duplicates keeping first occurrences. -/
def dedupFirst : List String → List String
  | [] => []
  | x :: xs => x :: dedupFirst (xs.filter (fun y => y != x))
termination_by l => l.length
decreasing_by
  have h := List.length_filter_le (fun y => y != x) xs
  simp only [List.length_cons]
  omega

/-- GTFS vehicle position (gtfs-types `Position`): every field may be absent. -/
structure RawPosition where
  latitude : Option ℚ
  longitude : Option ℚ
  speed : Option ℚ
  bearing : Option ℚ
deriving DecidableEq, Repr

/-- GTFS trip descriptor; the code reads both the snake-case and camel-case route id. -/
structure Trip where
  route_id : Option String
  routeId : Option String
  trip_id : Option String
  tripId : Option String
deriving DecidableEq, Repr

/-- GTFS vehicle descriptor (`vehicle.vehicle`). -/
structure VehicleDesc where
  id : Option String
deriving DecidableEq, Repr

/-- One GTFS `stopTimeUpdate` entry; times are `none` when absent. -/
structure StopTimeUpd where
  stopId : Option String
  departureTime : Option ℚ
  arrivalTime : Option ℚ
deriving DecidableEq, Repr

/-- GTFS `entity.vehicle` payload. -/
structure VehiclePos where
  vehicle : Option VehicleDesc
  position : Option RawPosition
  timestamp : Option ℚ
  trip : Option Trip
deriving DecidableEq, Repr

/-- A GTFS-realtime entity as used by the backend (`entity.id` is required by the
    `gtfs-types` definition; `tripUpdate.stopTimeUpdate` is inlined). -/
structure Entity where
  id : String
  vehicle : Option VehiclePos
  tripUpdate : Option (List StopTimeUpd)
deriving DecidableEq, Repr

/-- `entity.vehicle?.vehicle?.id`. -/
def vehId (e : Entity) : Option String :=
  (e.vehicle.bind VehiclePos.vehicle).bind VehicleDesc.id

/-- `entity.vehicle?.position`. -/
def entPos (e : Entity) : Option RawPosition :=
  e.vehicle.bind VehiclePos.position

/-- `entity.vehicle?.position?.speed`. -/
def entSpeed (e : Entity) : Option ℚ :=
  (entPos e).bind RawPosition.speed

/-- `entity.vehicle?.position?.latitude`. -/
def entLat (e : Entity) : Option ℚ :=
  (entPos e).bind RawPosition.latitude

/-- `entity.vehicle?.position?.longitude`. -/
def entLon (e : Entity) : Option ℚ :=
  (entPos e).bind RawPosition.longitude

/-- `entity.vehicle?.timestamp`. -/
def entTs (e : Entity) : Option ℚ :=
  e.vehicle.bind VehiclePos.timestamp

/-- `entity.vehicle?.trip?.route_id`. -/
def entRoute (e : Entity) : Option String :=
  (e.vehicle.bind VehiclePos.trip).bind Trip.route_id

/-- The Haversine distance function `calculateDistance(lat1, lon1, lat2, lon2)`
    (src/trainPairs.ts): transcendental, hence kept abstract. -/
abbrev Dist := ℚ → ℚ → ℚ → ℚ → ℚ

/-- `calculateDistance` applied to possibly-missing coordinates; `none` models the NaN
    obtained when a coordinate is `undefined`. -/
def distOfPositions (dist : Dist) (pa pb : RawPosition) : Option ℚ :=
  match pa.latitude, pa.longitude, pb.latitude, pb.longitude with
  | some la, some lo, some lb, some lp => some (dist la lo lb lp)
  | _, _, _, _ => none

/-- `calculateBearingDifference` (src/trainPairs.ts): min angle between two bearings;
    `none` models the NaN produced when a bearing is `undefined`. -/
def calculateBearingDifference : Option ℚ → Option ℚ → Option ℚ
  | some b1, some b2 => some (min |b1 - b2| (360 - |b1 - b2|))
  | _, _ => none

/-! ### Pair detector (src/trainPairs.ts) -/

/-- `PAIR_CRITERIA.minSpeed`. -/
def minSpeed : ℚ := 3
/-- `PAIR_CRITERIA.maxSpeed`. -/
def maxSpeed : ℚ := 35
/-- `PAIR_CRITERIA.trainLength`. -/
def trainLength : ℚ := 72
/-- `PAIR_CRITERIA.maxSpeedDiff`. -/
def maxSpeedDiff : ℚ := 3
/-- `PAIR_CRITERIA.maxBearingDiff`. -/
def maxBearingDiff : ℚ := 5
/-- `NOT_PAIR_CRITERIA.maxDistance`. -/
def maxPairDistance : ℚ := 2000

/-- `TrainPair.metCriteria` diagnostic snapshot. Numeric entries that may be NaN in JS
    (adjusted distance, implied speed, speed difference, bearing difference) and the
    possibly-undefined speeds and coordinates are `Option ℚ`. -/
structure MetCriteria where
  distanceMeters : Option ℚ
  speed : Option ℚ
  speedDifferenceMPS : Option ℚ
  bearingDifferenceDegrees : Option ℚ
  updatedAt : ℚ × ℚ
  speeds : Option ℚ × Option ℚ
  routeIds : String × String
  location : List (Option ℚ × Option ℚ)
deriving DecidableEq, Repr

/-- A detected coupled pair (src/trainPairs.ts `TrainPair`). -/
structure TrainPair where
  pairKey : String
  vehicleIds : String × String
  detectedAt : String
  metCriteria : MetCriteria
deriving DecidableEq, Repr

/-- `rawTrains.find(train => train.vehicle?.vehicle?.id === id0)?.vehicle`. -/
def lookupVeh (raws : List Entity) (id0 : String) : Option VehiclePos :=
  (raws.find? (fun e => vehId e == some id0)).bind Entity.vehicle

/-- The break-phase validity condition of lines 81: both vehicles found (by
    `lookupVeh`) carrying positions whose latitude is not (loosely) `0`. An absent
    latitude passes the loose `!= 0`. -/
def pairVehiclesValid (raws : List Entity) (p : TrainPair) : Bool :=
  match (lookupVeh raws p.vehicleIds.1).bind VehiclePos.position,
      (lookupVeh raws p.vehicleIds.2).bind VehiclePos.position with
  | some pa, some pb => pa.latitude != some (0 : ℚ) && pb.latitude != some (0 : ℚ)
  | _, _ => false

/-- The distance between the looked-up positions of a pair's vehicles (line 82). -/
def pairLookupDistance (dist : Dist) (raws : List Entity) (p : TrainPair) : Option ℚ :=
  match (lookupVeh raws p.vehicleIds.1).bind VehiclePos.position,
      (lookupVeh raws p.vehicleIds.2).bind VehiclePos.position with
  | some pa, some pb => distOfPositions dist pa pb
  | _, _ => none

/-- Lines 81-87: the pair is removed when both vehicles are found with valid
    positions and their distance exceeds the break threshold. -/
def breakCheckFails (dist : Dist) (raws : List Entity) (p : TrainPair) : Bool :=
  pairVehiclesValid raws p && optGt (pairLookupDistance dist raws p) maxPairDistance

/-- One iteration of the break phase of `checkForTrainPairs` (lines 77-90). The
    iteration runs over the original pair list while both `trainPairs` and `rawTrains`
    are reassigned inside the loop body, hence the state-passing fold `breakPhase`. -/
def breakStep (dist : Dist) (st : List TrainPair × List Entity) (p : TrainPair) :
    List TrainPair × List Entity :=
  let pairs' :=
    if breakCheckFails dist st.2 p then st.1.filter (fun q => q.pairKey != p.pairKey)
    else st.1
  let raws' := st.2.filter (fun e =>
    vehId e != some p.vehicleIds.1 && vehId e != some p.vehicleIds.2)
  (pairs', raws')

/-- Phase 1 of `checkForTrainPairs`: update/remove existing pairs, removing both
    vehicles of every pair from the candidate pool. -/
def breakPhase (dist : Dist) (pairs : List TrainPair) (raws : List Entity) :
    List TrainPair × List Entity :=
  pairs.foldl (breakStep dist) (pairs, raws)

/-- `train.vehicle?.position?.speed && speed >= minSpeed` (truthiness: speed `0` fails). -/
def speedOk (e : Entity) : Bool :=
  match entSpeed e with
  | some s => s != 0 && decide (s ≥ minSpeed)
  | none => false

/-- `train.vehicle?.position?.latitude && train.vehicle?.position?.longitude`. -/
def coordsOk (e : Entity) : Bool :=
  numTruthy (entLat e) && numTruthy (entLon e)

/-- `train.vehicle?.timestamp && timestamp >= timeNow - 30`. -/
def freshOk (now : ℚ) (e : Entity) : Bool :=
  match entTs e with
  | some t => t != 0 && decide (t ≥ now - 30)
  | none => false

/-- The three candidate filters applied before the detect loops (lines 94-96). -/
def candidateFilter (now : ℚ) (raws : List Entity) : List Entity :=
  ((raws.filter speedOk).filter coordsOk).filter (freshOk now)

/-- `[idA, idB].sort()` on two strings (default JS sort is lexicographic on code
    units, which agrees with Lean's `String` order on the ASCII ids used here). -/
def sortPairIds (x y : String) : String × String :=
  if x ≤ y then (x, y) else (y, x)

/-- The five `continue` guards of the detect double loop (lines 106-124), which have
    no side effects between them, as one predicate: true iff all criteria pass. An
    entity without a timestamp or position cannot form a pair (the candidate filter
    guarantees their presence in the loop). -/
def pairCriteria (dist : Dist) (a b : Entity) : Bool :=
  match entTs a, entTs b, entPos a, entPos b with
  | some tA, some tB, some pa, some pb =>
    -- `if (!timestamp) continue`: truthiness, timestamp 0 is rejected
    if tA == 0 || tB == 0 then false
    else
      -- `distance = Math.max(distance - 2 * trainLength, 0)`
      let adj : Option ℚ := (distOfPositions dist pa pb).map (fun d => max (d - 2 * trainLength) 0)
      if optGt adj (2 * trainLength) then false
      else
        let timeDiff := |tA - tB|
        -- `speed = distance / timeDiff`: with `timeDiff == 0`, JS yields Infinity
        -- (rejected) for a positive distance and NaN (passes) for 0/0
        let speedReject : Bool :=
          if timeDiff == 0 then
            match adj with
            | some d => d != 0
            | none => false
          else optGt (adj.map (fun d => d / timeDiff)) maxSpeed
        if speedReject then false
        else
          let speedDiff : Option ℚ :=
            match pa.speed, pb.speed with
            | some x, some y => some |x - y|
            | _, _ => none
          if optGt speedDiff maxSpeedDiff then false
          else
            let bearingDiff := calculateBearingDifference pa.bearing pb.bearing
            if optGt bearingDiff maxBearingDiff then false
            else
              let routeA := entRoute a
              let routeB := entRoute b
              !(strTruthy routeA && strTruthy routeB && routeA != routeB)
  | _, _, _, _ => false

/-- An all-absent position, used as the (unreachable) default below. -/
def emptyRawPosition : RawPosition :=
  { latitude := none, longitude := none, speed := none, bearing := none }

/-- The `TrainPair` record built at lines 127-141 once all criteria pass. -/
def mkPair (dist : Dist) (nowIso : String) (a b : Entity) : TrainPair :=
  let tA := (entTs a).getD 0
  let tB := (entTs b).getD 0
  let pa := (entPos a).getD emptyRawPosition
  let pb := (entPos b).getD emptyRawPosition
  let adj : Option ℚ := (distOfPositions dist pa pb).map (fun d => max (d - 2 * trainLength) 0)
  let timeDiff := |tA - tB|
  let routeA := entRoute a
  let routeB := entRoute b
  let ids := sortPairIds a.id b.id
  { pairKey := ids.1 ++ "-" ++ ids.2
    vehicleIds := ids
    detectedAt := nowIso
    metCriteria := {
      distanceMeters := adj
      speed := if timeDiff == 0 then none else adj.map (fun d => d / timeDiff)
      speedDifferenceMPS :=
        match pa.speed, pb.speed with
        | some x, some y => some |x - y|
        | _, _ => none
      bearingDifferenceDegrees := calculateBearingDifference pa.bearing pb.bearing
      updatedAt := (tA, tB)
      speeds := (pa.speed, pb.speed)
      routeIds := (routeA.getD "", routeB.getD "")
      location := [(pa.latitude, pa.longitude), (pb.latitude, pb.longitude)] } }

/-- The body of the detect double loop for one candidate pair (lines 103-145):
    a new pair exactly when all criteria pass. -/
def tryPair (dist : Dist) (nowIso : String) (a b : Entity) : Option TrainPair :=
  if pairCriteria dist a b then some (mkPair dist nowIso a b) else none

/-- Characterization of a successful `tryPair`. -/
theorem tryPair_eq_some (dist : Dist) (nowIso : String) (a b : Entity) (p : TrainPair) :
    tryPair dist nowIso a b = some p ↔
      pairCriteria dist a b = true ∧ p = mkPair dist nowIso a b := by
  rw [tryPair]
  by_cases h : pairCriteria dist a b = true
  · simp only [h, if_true, Option.some.injEq, true_and]
    exact ⟨fun he => he.symm, fun he => he.symm⟩
  · simp [h]

/-- The inner `for (let j = i + 1; ...)` loop (lines 100-146): `trainAEntity` stays the
    element captured at the start of the outer iteration even after `rawTrains` is
    reassigned by the filter following a successful match; the loop condition re-reads
    the (possibly shrunk) current array. -/
def detectInner (dist : Dist) (nowIso : String) (a : Entity) :
    ℕ → List Entity → List TrainPair → List Entity × List TrainPair
  | j, raws, pairs =>
    if h : j < raws.length then
      let b := raws[j]
      match tryPair dist nowIso a b with
      | none => detectInner dist nowIso a (j + 1) raws pairs
      | some p =>
        let raws' := raws.filter
          (fun e => vehId e != some p.vehicleIds.1 && vehId e != some p.vehicleIds.2)
        detectInner dist nowIso a (j + 1) raws' (pairs ++ [p])
    else (raws, pairs)
termination_by j raws _ => raws.length - j
decreasing_by
  · omega
  · have hf := List.length_filter_le
      (fun e => vehId e != some p.vehicleIds.1 && vehId e != some p.vehicleIds.2) raws
    omega

/-- The `detectInner` loop never grows the entity array. -/
theorem detectInner_length_le (dist : Dist) (nowIso : String) (a : Entity) :
    ∀ j raws pairs, (detectInner dist nowIso a j raws pairs).1.length ≤ raws.length := by
  intro j raws pairs
  induction j, raws, pairs using detectInner.induct dist nowIso a with
  | case1 j raws pairs h b hp ih =>
    rw [detectInner]
    simp only [dif_pos h, hp]
    exact ih
  | case2 j raws pairs h b p hp raws' ih =>
    rw [detectInner]
    simp only [dif_pos h, hp]
    have hf := List.length_filter_le
      (fun e => vehId e != some p.vehicleIds.1 && vehId e != some p.vehicleIds.2) raws
    exact le_trans ih (by simpa using hf)
  | case3 j raws pairs h =>
    rw [detectInner]
    simp only [dif_neg h]
    exact le_rfl

/-- The outer `for (let i = 0; ...)` loop of the detect phase (lines 98-147). -/
def detectOuter (dist : Dist) (nowIso : String) (i : ℕ) (raws : List Entity)
    (pairs : List TrainPair) : List Entity × List TrainPair :=
  if h : i < raws.length then
    let st := detectInner dist nowIso raws[i] (i + 1) raws pairs
    detectOuter dist nowIso (i + 1) st.1 st.2
  else (raws, pairs)
termination_by raws.length - i
decreasing_by
  have hle := detectInner_length_le dist nowIso raws[i] (i + 1) raws pairs
  omega

/-- Phase 2 of `checkForTrainPairs`: filter candidates, then run the detect loops. -/
def detectPhase (dist : Dist) (now : ℚ) (nowIso : String)
    (raws : List Entity) (pairs : List TrainPair) : List Entity × List TrainPair :=
  detectOuter dist nowIso 0 (candidateFilter now raws) pairs

/-- Phase 3 (lines 150-155): the id pushed for one pair. The route of the first id is
    looked up in the remaining working array; `routeA == ""` is loose JS equality, which
    is false for `undefined`. -/
def invisibleChoice (raws : List Entity) (p : TrainPair) : String :=
  let routeA := (lookupVeh raws p.vehicleIds.1).bind (fun v => v.trip.bind Trip.route_id)
  if routeA == some "" then p.vehicleIds.1 else p.vehicleIds.2

/-- Phase 3 plus the dedup of line 158. -/
def collectInvisible (raws : List Entity) (pairs : List TrainPair) : List String :=
  dedupFirst (pairs.foldl (fun acc p => acc ++ [invisibleChoice raws p]) [])

/-- The working state (remaining entity array, pair list) after the break and detect
    phases, i.e. just before the invisibility selection. -/
def postDetectState (dist : Dist) (now : ℚ) (nowIso : String)
    (rawTrains : List Entity) (trainPairs : List TrainPair) :
    List Entity × List TrainPair :=
  let st1 := breakPhase dist trainPairs rawTrains
  detectPhase dist now nowIso st1.2 st1.1

/-- `checkForTrainPairs(rawTrains, trainPairs)` (src/trainPairs.ts lines 73-159),
    parameterized by the distance function and the current time. Returns
    `(invisibleTrainIds, trainPairs)`. -/
def checkForTrainPairs (dist : Dist) (now : ℚ) (nowIso : String)
    (rawTrains : List Entity) (trainPairs : List TrainPair) :
    List String × List TrainPair :=
  let st2 := postDetectState dist now nowIso rawTrains trainPairs
  (collectInvisible st2.1 st2.2, st2.2)

/-! ### Track blocks and the tracked-train roster (src/trackBlocks.ts) -/

/-- JS truthiness of an optional block number (`undefined` and `0` falsy). -/
def numTruthyZ : Option ℤ → Bool
  | some n => n != 0
  | none => false

/-- Does the character list start with the second list? -/
def charsStartWith : List Char → List Char → Bool
  | _, [] => true
  | [], _ :: _ => false
  | c :: cs, d :: ds => c == d && charsStartWith cs ds

/-- Does the character list contain the second list as a contiguous run? -/
def charsContain : List Char → List Char → Bool
  | [], needle => needle.isEmpty
  | c :: cs, needle => charsStartWith (c :: cs) needle || charsContain cs needle

/-- JS `hay.includes(sub)`: substring test. -/
def strIncludes (hay sub : String) : Bool :=
  charsContain hay.toList sub.toList

/-- Tracked position of a roster train (`TrainInfo.position`): coordinates are plain
    numbers (initialized with `?? 0`), speed and bearing may be `undefined`. -/
structure TrackedPosition where
  latitude : ℚ
  longitude : ℚ
  timestamp : ℚ
  speed : Option ℚ
  bearing : Option ℚ
deriving DecidableEq, Repr

/-- One upcoming stop of a roster train; `departureTime` is `none` when it is NaN. -/
structure TrainStop where
  stopId : String
  departureTime : Option ℚ
deriving DecidableEq, Repr

/-- `TrainInfo` (src/trackBlocks.ts lines 55-63). -/
structure TrainInfo where
  trainId : String
  position : TrackedPosition
  currentBlock : Option ℤ
  previousBlock : Option ℤ
  route : String
  tripId : Option String
  stops : Option (List TrainStop)
deriving DecidableEq, Repr

/-- `Platform` (src/trackBlocks.ts lines 35-41). -/
structure Platform where
  blockNumber : ℤ
  stop_ids : Option (List String)
  isDefault : Option Bool
  bearing : Option ℚ
  routes : Option (List String)
deriving DecidableEq, Repr

/-- `TrackBlock` (src/trackBlocks.ts lines 43-51). -/
structure TrackBlock where
  blockNumber : ℤ
  platforms : Option (List Platform)
  altBlock : Option ℤ
  name : String
  priority : Bool
  polygon : List (ℚ × ℚ)
  routes : Option (List String)
deriving DecidableEq, Repr

/-- A `TrackBlockMap` is modelled by its value list in iteration order; `Map.get` is
    `find?` over it (JS `Map` keys are unique, so the first hit is the entry). -/
def blockGet (map : List TrackBlock) (n : ℤ) : Option TrackBlock :=
  map.find? (fun b => b.blockNumber == n)

/-- `isPointInPolygon` (src/trackBlocks.ts lines 291-321): ray casting with
    `for (let i = 0, j = polygon.length - 1; i < polygon.length; j = i++)`. -/
def isPointInPolygon (pointLat pointLng : ℚ) (polygon : List (ℚ × ℚ)) : Bool :=
  if polygon.length < 3 then false
  else
    (List.range polygon.length).foldl
      (fun isInside i =>
        let j := if i == 0 then polygon.length - 1 else i - 1
        let pf := polygon.getD i (0, 0)
        let pg := polygon.getD j (0, 0)
        let lat_i := pf.1
        let lng_i := pf.2
        let lat_j := pg.1
        let lng_j := pg.2
        let isLatBetweenEdgePoints := (decide (lat_i > pointLat)) != (decide (lat_j > pointLat))
        if lat_j != lat_i then
          let intersectionLng := (lng_j - lng_i) * (pointLat - lat_i) / (lat_j - lat_i) + lng_i
          if isLatBetweenEdgePoints && decide (pointLng < intersectionLng) then !isInside
          else isInside
        else isInside)
      false

/-- `trainInBlock` (src/trackBlocks.ts lines 351-362). -/
def trainInBlock (map : List TrackBlock) (train : TrainInfo) (blockNumber : ℤ) : Bool :=
  match blockGet map blockNumber with
  | some block =>
    match block.routes with
    | some rs =>
      if !(rs.any (fun r => strIncludes train.route r)) then false
      else isPointInPolygon train.position.latitude train.position.longitude block.polygon
    | none => isPointInPolygon train.position.latitude train.position.longitude block.polygon
  | none => false

/-- `setTrainBlock` (src/trackBlocks.ts lines 560-569). -/
def setTrainBlock (train : TrainInfo) (blockNumber : ℤ) : TrainInfo :=
  let prev := if train.previousBlock == none then some 0 else train.currentBlock
  { train with previousBlock := prev, currentBlock := some blockNumber }

/-- JS truncation toward zero. -/
def jsTrunc (q : ℚ) : ℤ :=
  if q ≥ 0 then ⌊q⌋ else ⌈q⌉

/-- JS `q % 360` (remainder with the sign of the dividend). -/
def jsMod360 (q : ℚ) : ℚ :=
  q - 360 * ((jsTrunc (q / 360) : ℤ) : ℚ)

/-- `platform.routes && !platform.routes.some(r => train.route.includes(r))`:
    the platform is skipped when this holds. -/
def platformRouteBlocked (train : TrainInfo) (p : Platform) : Bool :=
  match p.routes with
  | some rs => !(rs.any (fun r => strIncludes train.route r))
  | none => false

/-- Search phase 1 (lines 584-598): first platform whose `stop_ids` intersects the
    train's upcoming stops (both lists must be present; empty arrays are truthy). -/
def phase1Find (train : TrainInfo) : List Platform → Option ℤ
  | [] => none
  | p :: ps =>
    if platformRouteBlocked train p then phase1Find train ps
    else
      match p.stop_ids, train.stops with
      | some sids, some sts =>
        if (sids.filter (fun sid => sts.any (fun s => s.stopId == sid))).length > 0 then
          some p.blockNumber
        else phase1Find train ps
      | _, _ => phase1Find train ps

/-- Search phase 2 (lines 600-620): default platforms with a (truthy) bearing. The
    train's bearing is normalized in place (`train.position.bearing %= 360`), a
    mutation that persists, so the train is threaded through. -/
def phase2Find (train : TrainInfo) : List Platform → TrainInfo × Option ℤ
  | [] => (train, none)
  | p :: ps =>
    if platformRouteBlocked train p then phase2Find train ps
    else if p.isDefault == some true then
      match p.bearing with
      | some pb =>
        if pb != 0 then
          match train.position.bearing with
          | some tb =>
            if tb != 0 then
              let tb' := jsMod360 tb
              let train' := { train with position := { train.position with bearing := some tb' } }
              let bearingDiff := |pb - tb'|
              let normalizedBearingDiff := if bearingDiff > 180 then 360 - bearingDiff else bearingDiff
              if normalizedBearingDiff ≤ 90 then (train', some p.blockNumber)
              else phase2Find train' ps
            else phase2Find train ps
          | none => phase2Find train ps
        else phase2Find train ps
      | none => phase2Find train ps
    else phase2Find train ps

/-- Search phase 3 (lines 622-631): first default platform with a falsy bearing. -/
def phase3Find (train : TrainInfo) : List Platform → Option ℤ
  | [] => none
  | p :: ps =>
    if platformRouteBlocked train p then phase3Find train ps
    else if p.isDefault == some true && !(numTruthy p.bearing) then some p.blockNumber
    else phase3Find train ps

/-- The block loop of `findAndSetTrainBlock` (lines 580-638): first containing block;
    with platforms, phases 1-3 in order, falling through to the next block when no
    platform matches; without platforms the block itself is chosen. -/
def findBlockSearch (map : List TrackBlock) : TrainInfo → List TrackBlock →
    TrainInfo × Option ℤ
  | train, [] => (train, none)
  | train, block :: rest =>
    if trainInBlock map train block.blockNumber then
      match block.platforms with
      | some ps =>
        match phase1Find train ps with
        | some bn => (train, some bn)
        | none =>
          let st := phase2Find train ps
          match st.2 with
          | some bn => (st.1, some bn)
          | none =>
            match phase3Find st.1 ps with
            | some bn => (st.1, some bn)
            | none => findBlockSearch map st.1 rest
      | none => (train, some block.blockNumber)
    else findBlockSearch map train rest

/-- `findAndSetTrainBlock` (src/trackBlocks.ts lines 578-643). -/
def findAndSetTrainBlock (map : List TrackBlock) (train : TrainInfo) : TrainInfo :=
  let st := findBlockSearch map train map
  match st.2 with
  | some bn => setTrainBlock st.1 bn
  | none => { st.1 with currentBlock := none, previousBlock := none }

/-- Replace the element at an index, leaving the list unchanged otherwise. -/
def updateAt {α : Type} : ℕ → (α → α) → List α → List α
  | _, _, [] => []
  | 0, f, x :: xs => f x :: xs
  | n + 1, f, x :: xs => x :: updateAt n f xs

/-- Three-way string comparison; models `localeCompare` for the ASCII route ids the
    backend handles (both orders are lexicographic on code units there). -/
def strCompare (x y : String) : ℤ :=
  if x < y then -1 else if y < x then 1 else 0

/-- The route comparator of `updateAltBlocks` (lines 663-667). -/
def routeCmp (a b : TrainInfo) : ℤ :=
  if a.route == "OUT-OF-SERVICE" && b.route != "OUT-OF-SERVICE" then 1
  else if a.route != "OUT-OF-SERVICE" && b.route == "OUT-OF-SERVICE" then -1
  else strCompare a.route b.route

/-- Insert into a sorted list, before the first element not smaller than it. -/
def insertLe {α : Type} (le : α → α → Bool) (a : α) : List α → List α
  | [] => [a]
  | b :: bs => if le a b then a :: b :: bs else b :: insertLe le a bs

/-- Stable insertion sort; models the (stable) JS `Array.prototype.sort`: equal-key
    elements keep their relative order. -/
def sortByLe {α : Type} (le : α → α → Bool) : List α → List α
  | [] => []
  | a :: as => insertLe le a (sortByLe le as)

/-- The assignment loop of `updateAltBlocks` (lines 669-681) over the sorted trains of
    one block, with trains identified by their roster index: rank 0 keeps the main
    block, rank 1 moves to a truthy `altBlock`, every other train's (truthy) id is
    appended to `invisibleTrainIds` and its `currentBlock` is left alone. -/
def altApply (block : TrackBlock) : ℕ → List (ℕ × TrainInfo) →
    List TrainInfo × List String → List TrainInfo × List String
  | _, [], st => st
  | k, it :: rest, (roster, invis) =>
    if k == 0 then
      altApply block (k + 1) rest
        (updateAt it.1 (fun t => { t with currentBlock := some block.blockNumber }) roster, invis)
    else if numTruthyZ block.altBlock && k == 1 then
      altApply block (k + 1) rest
        (updateAt it.1 (fun t => { t with currentBlock := block.altBlock }) roster, invis)
    else
      altApply block (k + 1) rest
        (roster, if it.2.trainId != "" then invis ++ [it.2.trainId] else invis)

/-- The occupants of one block: roster trains (tagged with their index) whose
    `currentBlock` is the block's number and whose id is not yet invisible
    (lines 658-660). -/
def altCands (st : List TrainInfo × List String) (block : TrackBlock) :
    List (ℕ × TrainInfo) :=
  st.1.enum.filter (fun it =>
    it.2.currentBlock == some block.blockNumber && !(st.2.contains it.2.trainId))

/-- The sort key of lines 663-667 as a `Bool` comparator. -/
def altLe (x y : ℕ × TrainInfo) : Bool :=
  decide (routeCmp x.2 y.2 ≤ 0)

/-- One iteration of `updateAltBlocks` for a single block (lines 656-683). -/
def updateAltBlocksStep (st : List TrainInfo × List String) (block : TrackBlock) :
    List TrainInfo × List String :=
  let cands := altCands st block
  if cands.length > 1 then
    altApply block 0 (sortByLe altLe cands) st
  else st

/-- `updateAltBlocks` (src/trackBlocks.ts lines 653-684): state is the roster together
    with `invisibleTrainIds`, both mutated in place by the original. -/
def updateAltBlocks (map : List TrackBlock) (st : List TrainInfo × List String) :
    List TrainInfo × List String :=
  map.foldl updateAltBlocksStep st

/-! ### Roster sync (src/trackBlocks.ts lines 416-490) -/

/-- JS `x !== y` on two possibly-NaN numbers (`none` models NaN, and `NaN !== NaN`). -/
def optNumNeq : Option ℚ → Option ℚ → Bool
  | some x, some y => x != y
  | _, _ => true

/-- The upsert loop of `addNewStopsFromTripUpdate` (lines 418-433). -/
def upsertStop (stops : List TrainStop) (stu : StopTimeUpd) : List TrainStop :=
  let stopId := stu.stopId.getD ""
  -- `stu.departure?.time ? Number(...) : Number(stu.arrival?.time)`; `Number(undefined)`
  -- is NaN (`none`)
  let newDepartureTime : Option ℚ :=
    if numTruthy stu.departureTime then stu.departureTime else stu.arrivalTime
  match stops.find? (fun s => s.stopId == stopId) with
  | some _ =>
    stops.map (fun s =>
      if s.stopId == stopId then
        if optNumNeq s.departureTime newDepartureTime then
          { s with departureTime := newDepartureTime }
        else s
      else s)
  | none => stops ++ [{ stopId := stopId, departureTime := newDepartureTime }]

/-- `addNewStopsFromTripUpdate` (src/trackBlocks.ts lines 416-441). -/
def addNewStopsFromTripUpdate (stops : List TrainStop) (tripUpdate : Option (List StopTimeUpd))
    (now : ℚ) : Option (List TrainStop) :=
  match tripUpdate with
  | some stus =>
    let stops' := stus.foldl upsertStop stops
    let stops'' := stops'.filter (fun s =>
      s.departureTime == some (0 : ℚ) ||
        (match s.departureTime with
         | some d => decide (d ≥ now - 60 * 10)
         | none => false))
    if stops''.length > 0 then some stops'' else none
  | none => if stops.length > 0 then some stops else none

/-- `calculatedSpeed` (src/trackBlocks.ts lines 333-341). -/
def calculatedSpeed (dist : Dist) (lat1 lon1 lat2 lon2 time1 time2 : ℚ) : ℚ :=
  let distanceMeters := dist lat1 lon1 lat2 lon2
  let timeDeltaSeconds := time2 - time1
  if timeDeltaSeconds > 0 then distanceMeters / timeDeltaSeconds else 0

/-- `updateExistingTrainPosition` (src/trackBlocks.ts lines 449-490). Note the source's
    `if (newSpeed)` guard: a reported speed of `0` is falsy, so it takes the `else`
    (calculated-speed) branch, and inside the truthy branch `newSpeed === 0` can never
    hold - the smoothing assignment is unreachable. Both are embedded literally. -/
def updateExistingTrainPosition (dist : Dist) (now : ℚ) (trackedTrain : TrainInfo)
    (gtfsTrain : Entity) : TrainInfo :=
  let newPosition := gtfsTrain.vehicle.bind VehiclePos.position
  -- loose `!=`: an absent coordinate differs from any number
  if (newPosition.bind RawPosition.latitude) != some trackedTrain.position.latitude ||
      (newPosition.bind RawPosition.longitude) != some trackedTrain.position.longitude then
    let newSpeed0 := newPosition.bind RawPosition.speed
    let st : TrainInfo × ℚ :=
      if numTruthy newSpeed0 then
        let s := newSpeed0.getD 0
        let t1 :=
          if s == 0 && trackedTrain.position.speed == some (0 : ℚ) then
            -- SMOOTHING_FACTOR = 0.95 (unreachable: `s` is truthy here)
            { trackedTrain with position := { trackedTrain.position with
                latitude := trackedTrain.position.latitude * (95 / 100) +
                  ((newPosition.bind RawPosition.latitude).getD 0) * (1 - 95 / 100)
                longitude := trackedTrain.position.longitude * (95 / 100) +
                  ((newPosition.bind RawPosition.longitude).getD 0) * (1 - 95 / 100) } }
          else trackedTrain
        (t1, s)
      else
        let s := calculatedSpeed dist trackedTrain.position.latitude
          trackedTrain.position.longitude ((newPosition.bind RawPosition.latitude).getD 0)
          ((newPosition.bind RawPosition.longitude).getD 0) trackedTrain.position.timestamp
          ((gtfsTrain.vehicle.bind VehiclePos.timestamp).getD 0)
        ({ trackedTrain with position := { trackedTrain.position with
            latitude := (newPosition.bind RawPosition.latitude).getD 0
            longitude := (newPosition.bind RawPosition.longitude).getD 0 } }, s)
    let t1 := st.1
    let newSpeed := st.2
    let t2 :=
      if 4 < newSpeed ∧ newSpeed < 55 then
        { t1 with position := { t1.position with bearing := newPosition.bind RawPosition.bearing } }
      else t1
    let trip := gtfsTrain.vehicle.bind VehiclePos.trip
    { t2 with
      position := { t2.position with
        speed := some newSpeed
        timestamp := (gtfsTrain.vehicle.bind VehiclePos.timestamp).getD 0 }
      route := ((trip.bind Trip.route_id).orElse (fun _ => trip.bind Trip.routeId)).getD
        "OUT-OF-SERVICE"
      tripId := trip.bind Trip.trip_id
      stops := addNewStopsFromTripUpdate (trackedTrain.stops.getD [])
        (gtfsTrain.tripUpdate) now }
  else trackedTrain

/-! ### LED output generation (src/trackBlocks.ts lines 686-756) -/

/-- One `blockRemap` rule (`end` is a reserved word in Lean, hence the quoted name). -/
structure RemapRule where
  start : ℤ
  «end» : ℤ
  offset : ℤ
deriving DecidableEq, Repr

/-- `LEDUpdate`. -/
structure LEDUpdate where
  b : List ℤ
  c : ℕ
  t : ℚ
deriving DecidableEq, Repr

/-- `LEDRailsAPIOutput`. -/
structure LEDRailsAPIOutput where
  version : String
  timestamp : ℚ
  update : ℚ
  colors : List (ℕ × (ℕ × ℕ × ℕ))
  updates : List LEDUpdate
deriving DecidableEq, Repr

/-- `LEDRailsAPI`; `routeToColorId` is an association list (JS `Record`, unique keys). -/
structure LEDRailsAPI where
  routeToColorId : List (String × ℕ)
  url : String
  blockRemap : Option (List RemapRule)
  displayThreshold : ℚ
  randomizeTimeOffset : Bool
  updateInterval : ℚ
  output : LEDRailsAPIOutput
deriving DecidableEq, Repr

/-- `api.routeToColorId[route]`. -/
def rcLookup (m : List (String × ℕ)) (route : String) : Option ℕ :=
  (m.find? (fun kv => kv.1 == route)).map Prod.snd

/-- The per-number remap (lines 741-747): first rule whose inclusive range contains
    the block number wins; no match leaves the number unchanged. -/
def remapBlock (rules : List RemapRule) (blockNum : ℤ) : ℤ :=
  match rules.find? (fun r => decide (r.start ≤ blockNum) && decide (blockNum ≤ r.«end»)) with
  | some r => blockNum + r.offset
  | none => blockNum

/-- The remap over a whole update list (lines 740-750). -/
def remapUpdates (rules : List RemapRule) (updates : List LEDUpdate) : List LEDUpdate :=
  updates.map (fun u => { u with b := u.b.map (remapBlock rules) })

/-- The `forEach` emission loop of `generateLedMap` (lines 706-736) over the
    display-filtered roster. Returns the update list and the logged diagnostics.
    `rands k` models the `Math.floor(Math.random() * (updateInterval - 1))` draw; the
    counter is advanced per train, which covers every consumption pattern since the
    oracle is universally quantified in the theorems. -/
def ledEmit (api : LEDRailsAPI) (rands : ℕ → ℤ) (updateTime : ℚ) :
    List TrainInfo → ℕ → List LEDUpdate × List String
  | [], _ => ([], [])
  | train :: ts, k =>
    match train.currentBlock, train.previousBlock with
    | some cb, some pb =>
      match rcLookup api.routeToColorId train.route with
      | some colorId =>
        let timeOffset : ℚ :=
          if api.randomizeTimeOffset then
            if pb == cb then 0 else ((rands k : ℤ) : ℚ) + 1
          else max (train.position.timestamp - updateTime) 0
        let rst := ledEmit api rands updateTime ts (k + 1)
        ({ b := [pb, cb], c := colorId, t := timeOffset } :: rst.1, rst.2)
      | none =>
        let rst := ledEmit api rands updateTime ts (k + 1)
        (rst.1, ("No color mapping for route " ++ train.route) :: rst.2)
    | _, _ => ledEmit api rands updateTime ts (k + 1)

/-- `generateLedMap` (src/trackBlocks.ts lines 696-756). The TS function mutates only
    `api.output.updates` and `api.output.timestamp`; the embedding returns the new api
    value together with the roster (threaded unchanged: the source never assigns to a
    train) and the logged diagnostics. -/
def generateLedMap (rands : ℕ → ℤ) (now : ℚ) (api : LEDRailsAPI)
    (trackedTrains : List TrainInfo) (invisibleTrainIds : List String) :
    LEDRailsAPI × List TrainInfo × List String :=
  let displayCutoff := now - api.displayThreshold
  let updateTime := now - api.updateInterval
  let displayed := (trackedTrains.filter
      (fun t => decide (t.position.timestamp ≥ displayCutoff))).filter
      (fun t => !(invisibleTrainIds.contains t.trainId))
  let emitted := ledEmit api rands updateTime displayed 0
  let updates :=
    match api.blockRemap with
    | some rules => remapUpdates rules emitted.1
    | none => emitted.1
  ({ api with output := { api.output with updates := updates, timestamp := now } },
    trackedTrains, emitted.2)

/-! ### Train entity filter (src/railNetwork.ts lines 319-349) -/

/-- `trainFilter.entityID` range. -/
structure EntityIDRange where
  start : ℚ
  «end» : ℚ
deriving DecidableEq, Repr

/-- `trainFilter.trip_ID`. -/
structure TripIDFilter where
  includes : Option (List String)
  excludes : Option (List String)
deriving DecidableEq, Repr

/-- `config.trainFilter`: both members optional. -/
structure TrainFilterCfg where
  entityID : Option EntityIDRange
  trip_ID : Option TripIDFilter
deriving DecidableEq, Repr

/-- The train filter stage. `numOf` models JS `Number(entity.id)` (`none` = NaN).
    `prevTrainEntities` is the value of `this.trainEntities` from the previous cycle:
    when `trainFilter` is present but carries neither an `entityID` nor a `trip_ID`
    member, no branch of the source assigns `this.trainEntities`, so the old value
    stays; when `trainFilter` is absent, the whole entity store is assigned. -/
def filterTrainEntities (numOf : String → Option ℚ) (cfg : Option TrainFilterCfg)
    (entities prevTrainEntities : List Entity) : List Entity :=
  match cfg with
  | none => entities
  | some c =>
    match c.entityID with
    | some r =>
      entities.filter (fun e =>
        if e.id == "" then false
        else
          match numOf e.id with
          | some n => decide (r.start ≤ n) && decide (n ≤ r.«end»)
          | none => false)
    | none =>
      match c.trip_ID with
      | some tf =>
        entities.filter (fun e =>
          let trip := e.vehicle.bind VehiclePos.trip
          -- `trip_id || tripId`: falsy (absent or empty) falls through
          let tripId := if strTruthy (trip.bind Trip.trip_id) then trip.bind Trip.trip_id
            else trip.bind Trip.tripId
          if !(strTruthy tripId) then false
          else
            let tid := tripId.getD ""
            let excluded :=
              match tf.excludes with
              | some exs => exs.any (fun x => strIncludes tid x)
              | none => false
            if excluded then false
            else
              match tf.includes with
              | some incs =>
                if incs.length > 0 then incs.any (fun x => strIncludes tid x) else true
              | none => true)
      | none => prevTrainEntities

/-! ### Claim C7: empty train filter configuration -/

/-- A minimal entity for concrete evaluations. -/
def bareEntity : Entity :=
  { id := "1", vehicle := none, tripUpdate := none }

/-- C7 counterexample: with a present-but-empty `trainFilter` (`{}` in config.json,
    truthy, with neither `entityID` nor `trip_ID`), the stage is not a pass-through:
    no branch assigns `this.trainEntities`, so the previous value remains. Taking the
    previous train list empty and the store `[bareEntity]` refutes the claim. -/
theorem c7_counterexample :
    ¬ (∀ (numOf : String → Option ℚ) (entities prevTrainEntities : List Entity),
      filterTrainEntities numOf (some { entityID := none, trip_ID := none })
        entities prevTrainEntities = entities) := by
  intro h
  have h0 := h (fun _ => none) [bareEntity] []
  simp [filterTrainEntities] at h0

/-- C7 (amended): the filter stage is a pass-through when the train filter
    configuration is absent; when it is present but has neither an `entityID` nor a
    `trip_ID` member, the train entity list keeps its previous value instead. -/
theorem c7_amended (numOf : String → Option ℚ) (entities prevTrainEntities : List Entity) :
    filterTrainEntities numOf none entities prevTrainEntities = entities ∧
    filterTrainEntities numOf (some { entityID := none, trip_ID := none })
      entities prevTrainEntities = prevTrainEntities :=
  ⟨rfl, rfl⟩

/-! ### Claim C8: idempotence of the block remap -/

/-- The claim's side condition: no rule's output value falls into any rule's input
    range. -/
def remapOutputsDisjoint (rules : List RemapRule) : Prop :=
  ∀ r ∈ rules, ∀ s ∈ rules, ∀ b : ℤ, r.start ≤ b → b ≤ r.«end» →
    ¬(s.start ≤ b + r.offset ∧ b + r.offset ≤ s.«end»)

/-- Remapping a single block number twice equals remapping it once, under the side
    condition. -/
theorem remapBlock_idem (rules : List RemapRule) (h : remapOutputsDisjoint rules)
    (blockNum : ℤ) : remapBlock rules (remapBlock rules blockNum) = remapBlock rules blockNum := by
  unfold remapBlock
  cases hfind : rules.find?
      (fun r => decide (r.start ≤ blockNum) && decide (blockNum ≤ r.«end»)) with
  | none => rw [hfind]
  | some r =>
    have hmem := List.mem_of_find?_eq_some hfind
    have hpred := List.find?_some hfind
    simp only [Bool.and_eq_true, decide_eq_true_eq] at hpred
    have hnone : rules.find?
        (fun s => decide (s.start ≤ blockNum + r.offset) &&
          decide (blockNum + r.offset ≤ s.«end»)) = none := by
      rw [List.find?_eq_none]
      intro s hs
      have := h r hmem s hs blockNum hpred.1 hpred.2
      simp only [Bool.and_eq_true, decide_eq_true_eq]
      tauto
    rw [hnone]

/-- C8: the block-remap rewrite is idempotent on every update list whenever no rule's
    output value falls into any rule's input range. -/
theorem c8_remap_idempotent (rules : List RemapRule) (h : remapOutputsDisjoint rules)
    (updates : List LEDUpdate) :
    remapUpdates rules (remapUpdates rules updates) = remapUpdates rules updates := by
  unfold remapUpdates
  rw [List.map_map]
  apply List.map_congr_left
  intro u _
  simp only [Function.comp_apply, List.map_map]
  congr 1
  apply List.map_congr_left
  intro b _
  exact remapBlock_idem rules h b

/-- Witness for C8 at the remap rule of the spec's scenario 6. -/
theorem c8_remap_idempotent_witness :
    remapOutputsDisjoint [⟨300, 399, -100⟩] ∧
    remapUpdates [⟨300, 399, -100⟩]
        (remapUpdates [⟨300, 399, -100⟩] [{ b := [301, 302], c := 1, t := 0 }]) =
      remapUpdates [⟨300, 399, -100⟩] [{ b := [301, 302], c := 1, t := 0 }] := by
  have hdisj : remapOutputsDisjoint [⟨300, 399, -100⟩] := by
    intro r hr s hs b h1 h2 h3
    simp only [List.mem_singleton] at hr hs
    subst hr; subst hs
    obtain ⟨h4, h5⟩ := h3
    dsimp only at h1 h2 h4 h5
    omega
  exact ⟨hdisj, c8_remap_idempotent _ hdisj _⟩

/-! ### Claim C1: position smoothing in the roster sync -/

/-- A concrete distance function for evaluations. -/
def distZero : Dist := fun _ _ _ _ => 0

/-- A tracked train at (1, 1) with stored speed 0. -/
def c1TrackedTrain : TrainInfo :=
  { trainId := "T1"
    position := { latitude := 1, longitude := 1, timestamp := 50, speed := some 0, bearing := none }
    currentBlock := none
    previousBlock := none
    route := "EAST"
    tripId := none
    stops := none }

/-- An incoming entity for the same vehicle at (2, 2) with the given reported speed. -/
def c1Entity (speed : Option ℚ) : Entity :=
  { id := "T1"
    vehicle := some {
      vehicle := some { id := some "T1" }
      position := some { latitude := some 2, longitude := some 2, speed := speed, bearing := none }
      timestamp := some 60
      trip := some { route_id := some "EAST", routeId := none, trip_id := none, tripId := none } }
    tripUpdate := none }

/-- C1: the code contradicts the claim (and its own smoothing constant) at both
    failing inputs. With old and new reported speeds both 0 the claim demands the
    smoothed latitude 0.95·1 + 0.05·2 = 21/20, but `if (newSpeed)` treats the reported
    0 as missing, so the non-smoothing branch overwrites the position (latitude 2);
    the `newSpeed === 0 && …` smoothing branch sits inside that truthy guard and is
    unreachable. With a provided nonzero speed (10) the claim demands the position be
    overwritten (latitude 2), but the truthy branch never assigns the position, so the
    stored latitude stays 1. -/
theorem c1_code_eval :
    ((updateExistingTrainPosition distZero 0 c1TrackedTrain (c1Entity (some 0))).position.latitude
        = 2 ∧
      (updateExistingTrainPosition distZero 0 c1TrackedTrain (c1Entity (some 0))).position.latitude
        ≠ 21 / 20) ∧
    (updateExistingTrainPosition distZero 0 c1TrackedTrain (c1Entity (some 10))).position.latitude
      = 1 := by
  refine ⟨⟨?_, ?_⟩, ?_⟩ <;>
    norm_num [updateExistingTrainPosition, calculatedSpeed, distZero, c1TrackedTrain, c1Entity,
      addNewStopsFromTripUpdate, numTruthy, Option.bind]

/-! ### Claim C10: frame of `generateLedMap` -/

/-- C10: `generateLedMap` changes only `output.updates` and `output.timestamp` of its
    api argument; the configuration fields and the untouched output fields are
    preserved, and the tracked-train roster is returned unmutated. -/
theorem c10_frame (rands : ℕ → ℤ) (now : ℚ) (api : LEDRailsAPI)
    (trackedTrains : List TrainInfo) (invisibleTrainIds : List String) :
    (generateLedMap rands now api trackedTrains invisibleTrainIds).2.1 = trackedTrains ∧
    (generateLedMap rands now api trackedTrains invisibleTrainIds).1.routeToColorId
      = api.routeToColorId ∧
    (generateLedMap rands now api trackedTrains invisibleTrainIds).1.url = api.url ∧
    (generateLedMap rands now api trackedTrains invisibleTrainIds).1.blockRemap
      = api.blockRemap ∧
    (generateLedMap rands now api trackedTrains invisibleTrainIds).1.displayThreshold
      = api.displayThreshold ∧
    (generateLedMap rands now api trackedTrains invisibleTrainIds).1.randomizeTimeOffset
      = api.randomizeTimeOffset ∧
    (generateLedMap rands now api trackedTrains invisibleTrainIds).1.updateInterval
      = api.updateInterval ∧
    (generateLedMap rands now api trackedTrains invisibleTrainIds).1.output.version
      = api.output.version ∧
    (generateLedMap rands now api trackedTrains invisibleTrainIds).1.output.update
      = api.output.update ∧
    (generateLedMap rands now api trackedTrains invisibleTrainIds).1.output.colors
      = api.output.colors ∧
    (generateLedMap rands now api trackedTrains invisibleTrainIds).1.output.timestamp = now :=
  ⟨rfl, rfl, rfl, rfl, rfl, rfl, rfl, rfl, rfl, rfl, rfl⟩

/-! ### Claim C9: color lookup in LED generation -/

/-- The claim's "displayable train": recent timestamp, not invisible, and both blocks
    defined (the order matches the source's filters and guard). -/
def displayableB (now : ℚ) (api : LEDRailsAPI) (invis : List String) (t : TrainInfo) : Bool :=
  decide (t.position.timestamp ≥ now - api.displayThreshold) && !(invis.contains t.trainId) &&
    t.currentBlock.isSome && t.previousBlock.isSome

/-- The emission loop produces one update per train with both blocks defined and a
    known color. -/
theorem ledEmit_length (api : LEDRailsAPI) (rands : ℕ → ℤ) (ut : ℚ) (ts : List TrainInfo) :
    ∀ k, (ledEmit api rands ut ts k).1.length =
      (ts.filter (fun t => t.currentBlock.isSome && t.previousBlock.isSome &&
        (rcLookup api.routeToColorId t.route).isSome)).length := by
  induction ts with
  | nil => intro k; simp [ledEmit]
  | cons t ts ih =>
    intro k
    rw [ledEmit]
    cases hcb : t.currentBlock with
    | none => simp [hcb, ih]
    | some cb =>
      cases hpb : t.previousBlock with
      | none => simp [hcb, hpb, ih]
      | some pb =>
        cases hc : rcLookup api.routeToColorId t.route with
        | none => simp [hcb, hpb, hc, ih]
        | some c => simp [hcb, hpb, hc, ih]

/-- Every emitted update comes from a train with both blocks defined whose route's
    color is the update's `c`. -/
theorem ledEmit_mem (api : LEDRailsAPI) (rands : ℕ → ℤ) (ut : ℚ) (ts : List TrainInfo) :
    ∀ k u, u ∈ (ledEmit api rands ut ts k).1 →
      ∃ t ∈ ts, t.currentBlock.isSome ∧ t.previousBlock.isSome ∧
        rcLookup api.routeToColorId t.route = some u.c := by
  induction ts with
  | nil => intro k u hu; simp [ledEmit] at hu
  | cons t ts ih =>
    intro k u hu
    rw [ledEmit] at hu
    cases hcb : t.currentBlock with
    | none =>
      rw [hcb] at hu
      obtain ⟨t', ht', h'⟩ := ih (k + 1) u hu
      exact ⟨t', List.mem_cons_of_mem _ ht', h'⟩
    | some cb =>
      cases hpb : t.previousBlock with
      | none =>
        rw [hcb, hpb] at hu
        obtain ⟨t', ht', h'⟩ := ih (k + 1) u hu
        exact ⟨t', List.mem_cons_of_mem _ ht', h'⟩
      | some pb =>
        rw [hcb, hpb] at hu
        cases hc : rcLookup api.routeToColorId t.route with
        | none =>
          rw [hc] at hu
          simp only at hu
          obtain ⟨t', ht', h'⟩ := ih (k + 1) u hu
          exact ⟨t', List.mem_cons_of_mem _ ht', h'⟩
        | some c =>
          rw [hc] at hu
          simp only [List.mem_cons] at hu
          rcases hu with hu | hu
          · subst hu
            exact ⟨t, List.mem_cons_self _ _, by simp [hcb], by simp [hpb], by simp [hc]⟩
          · obtain ⟨t', ht', h'⟩ := ih (k + 1) u hu
            exact ⟨t', List.mem_cons_of_mem _ ht', h'⟩

/-- A train with both blocks defined but no color mapping gets its diagnostic logged. -/
theorem ledEmit_log (api : LEDRailsAPI) (rands : ℕ → ℤ) (ut : ℚ) (ts : List TrainInfo) :
    ∀ k t, t ∈ ts → t.currentBlock.isSome → t.previousBlock.isSome →
      rcLookup api.routeToColorId t.route = none →
      ("No color mapping for route " ++ t.route) ∈ (ledEmit api rands ut ts k).2 := by
  induction ts with
  | nil => intro k t ht; simp at ht
  | cons t0 ts ih =>
    intro k t ht hcb hpb hc
    rw [ledEmit]
    rcases List.mem_cons.mp ht with rfl | ht'
    · obtain ⟨cb, hcb'⟩ := Option.isSome_iff_exists.mp hcb
      obtain ⟨pb, hpb'⟩ := Option.isSome_iff_exists.mp hpb
      rw [hcb', hpb', hc]
      simp
    · cases h0cb : t0.currentBlock with
      | none => exact ih (k + 1) t ht' hcb hpb hc
      | some cb0 =>
        cases h0pb : t0.previousBlock with
        | none => exact ih (k + 1) t ht' hcb hpb hc
        | some pb0 =>
          cases h0c : rcLookup api.routeToColorId t0.route with
          | none => simpa using Or.inr (ih (k + 1) t ht' hcb hpb hc)
          | some c0 => exact ih (k + 1) t ht' hcb hpb hc

/-- C9: in LED generation, every displayable train whose route has no color mapping
    produces no update entry but a logged diagnostic, the number of emitted entries is
    exactly the number of displayable trains with a mapped color, and every emitted
    entry's `c` is the color id of some displayable train's route. -/
theorem c9_color_handling (rands : ℕ → ℤ) (now : ℚ) (api : LEDRailsAPI)
    (roster : List TrainInfo) (invis : List String) :
    (∀ t ∈ roster, displayableB now api invis t = true →
      rcLookup api.routeToColorId t.route = none →
      ("No color mapping for route " ++ t.route) ∈ (generateLedMap rands now api roster invis).2.2) ∧
    (generateLedMap rands now api roster invis).1.output.updates.length =
      (roster.filter (fun t => displayableB now api invis t &&
        (rcLookup api.routeToColorId t.route).isSome)).length ∧
    (∀ u ∈ (generateLedMap rands now api roster invis).1.output.updates,
      ∃ t ∈ roster, displayableB now api invis t = true ∧
        rcLookup api.routeToColorId t.route = some u.c) := by
  refine ⟨?_, ?_, ?_⟩
  · intro t ht hd hc
    simp only [displayableB, Bool.and_eq_true, decide_eq_true_eq, Bool.not_eq_true'] at hd
    apply ledEmit_log
    · exact List.mem_filter.mpr ⟨List.mem_filter.mpr ⟨ht, by simpa using hd.1.1.1⟩,
        by simpa using hd.1.1.2⟩
    · exact hd.1.2
    · exact hd.2
    · exact hc
  · have hlen : (generateLedMap rands now api roster invis).1.output.updates.length =
        (ledEmit api rands (now - api.updateInterval)
          ((roster.filter (fun t => decide (t.position.timestamp ≥ now - api.displayThreshold))).filter
            (fun t => !(invis.contains t.trainId))) 0).1.length := by
      unfold generateLedMap
      cases api.blockRemap <;> simp [remapUpdates]
    rw [hlen, ledEmit_length]
    simp only [List.filter_filter]
    congr 1
    apply List.filter_congr
    intro t _
    simp only [displayableB, Bool.and_assoc, Bool.and_comm, Bool.and_left_comm]
  · intro u hu
    have hmem : ∃ v ∈ (ledEmit api rands (now - api.updateInterval)
        ((roster.filter (fun t => decide (t.position.timestamp ≥ now - api.displayThreshold))).filter
          (fun t => !(invis.contains t.trainId))) 0).1, u.c = v.c := by
      unfold generateLedMap at hu
      cases hrm : api.blockRemap with
      | none => simp only [hrm] at hu; exact ⟨u, hu, rfl⟩
      | some rules =>
        simp only [hrm, remapUpdates, List.mem_map] at hu
        obtain ⟨v, hv, rfl⟩ := hu
        exact ⟨v, hv, rfl⟩
    obtain ⟨v, hv, hvc⟩ := hmem
    obtain ⟨t, ht, hcb, hpb, hc⟩ := ledEmit_mem api rands _ _ 0 v hv
    have ht1 := List.mem_filter.mp ht
    have ht2 := List.mem_filter.mp ht1.1
    refine ⟨t, ht2.1, ?_, by rw [hvc]; exact hc⟩
    simp only [displayableB, Bool.and_eq_true]
    exact ⟨⟨⟨by simpa using ht2.2, by simpa using ht1.2⟩, hcb⟩, hpb⟩

/-- Concrete api for the C9 witness: only route "E" has a color. -/
def c9Api : LEDRailsAPI :=
  { routeToColorId := [("E", 1)]
    url := "/x-ltm/100.json"
    blockRemap := none
    displayThreshold := 0
    randomizeTimeOffset := true
    updateInterval := 0
    output := { version := "100", timestamp := 0, update := 0, colors := [], updates := [] } }

/-- A displayable train on the mapped route "E". -/
def c9GoodTrain : TrainInfo :=
  { trainId := "G"
    position := { latitude := 0, longitude := 0, timestamp := 1, speed := none, bearing := none }
    currentBlock := some 5, previousBlock := some 5
    route := "E", tripId := none, stops := none }

/-- A displayable train on the unmapped route "X". -/
def c9BadTrain : TrainInfo :=
  { trainId := "B"
    position := { latitude := 0, longitude := 0, timestamp := 1, speed := none, bearing := none }
    currentBlock := some 6, previousBlock := some 6
    route := "X", tripId := none, stops := none }

/-- Witness for C9: with roster [good, bad], the bad train's diagnostic is logged and
    exactly one update (for the good train) is emitted. -/
theorem c9_color_handling_witness :
    ("No color mapping for route " ++ "X") ∈
      (generateLedMap (fun _ => 0) 0 c9Api [c9GoodTrain, c9BadTrain] []).2.2 ∧
    (generateLedMap (fun _ => 0) 0 c9Api [c9GoodTrain, c9BadTrain] []).1.output.updates.length
      = 1 := by
  have h := c9_color_handling (fun _ => 0) 0 c9Api [c9GoodTrain, c9BadTrain] []
  constructor
  · have hb : c9BadTrain ∈ [c9GoodTrain, c9BadTrain] := by simp
    have hd : displayableB 0 c9Api [] c9BadTrain = true := by
      norm_num [displayableB, c9Api, c9BadTrain]
    have hc : rcLookup c9Api.routeToColorId c9BadTrain.route = none := rfl
    have := h.1 c9BadTrain hb hd hc
    simpa [c9BadTrain] using this
  · rw [h.2.1]
    have hg : displayableB 0 c9Api [] c9GoodTrain = true := by
      norm_num [displayableB, c9Api, c9GoodTrain]
    have hbad : displayableB 0 c9Api [] c9BadTrain = true := by
      norm_num [displayableB, c9Api, c9BadTrain]
    simp only [List.filter_cons, List.filter_nil, hg, hbad]
    norm_num [rcLookup, c9Api, c9GoodTrain, c9BadTrain]
    decide

/-! ### Claim C2: invisibility selection for coupled pairs -/

/-- `dedupFirst` preserves membership. -/
theorem mem_dedupFirst : ∀ (l : List String) (x : String), x ∈ dedupFirst l ↔ x ∈ l := by
  intro l
  induction l using dedupFirst.induct with
  | case1 => intro x; rw [dedupFirst]
  | case2 y ys ih =>
    intro x
    rw [dedupFirst]
    simp only [List.mem_cons]
    by_cases hxy : x = y
    · simp [hxy]
    · simp only [hxy, false_or]
      rw [ih x]
      simp [List.mem_filter, hxy]

/-- `dedupFirst` has no duplicates. -/
theorem nodup_dedupFirst : ∀ l : List String, (dedupFirst l).Nodup := by
  intro l
  induction l using dedupFirst.induct with
  | case1 => rw [dedupFirst]; exact List.nodup_nil
  | case2 y ys ih =>
    rw [dedupFirst]
    refine List.nodup_cons.mpr ⟨?_, ih⟩
    intro hy
    have := (mem_dedupFirst _ y).mp hy
    simp [List.mem_filter] at this

/-- `foldl` with singleton appends is `map`. -/
theorem foldl_append_map {α β : Type} (f : α → β) :
    ∀ (l : List α) (acc : List β), l.foldl (fun a x => a ++ [f x]) acc = acc ++ l.map f := by
  intro l
  induction l with
  | nil => intro acc; simp
  | cons x xs ih => intro acc; simp [ih, List.append_assoc]

/-- The invisibility phase is the dedup of the per-pair choices. -/
theorem collectInvisible_eq (raws : List Entity) (pairs : List TrainPair) :
    collectInvisible raws pairs = dedupFirst (pairs.map (invisibleChoice raws)) := by
  rw [collectInvisible, foldl_append_map]
  simp

/-- The claim's "route_id is empty or absent" for the vehicle looked up by id. -/
def c2SpecQualifies (raws : List Entity) (id0 : String) : Bool :=
  match (lookupVeh raws id0).bind (fun v => v.trip.bind Trip.route_id) with
  | none => true
  | some r => r == ""

/-- The claim's selection rule: prefer the vehicle with empty/absent route_id,
    otherwise take the second id of the sorted pair. -/
def c2SpecChoice (raws : List Entity) (p : TrainPair) : String :=
  if c2SpecQualifies raws p.vehicleIds.1 then p.vehicleIds.1 else p.vehicleIds.2

/-- C2 as claimed, for one input state: for every pair of the final pair set, exactly
    the spec-chosen id of the pair is in `invisibleTrainIds`, and the list has no
    duplicates. -/
def c2ClaimHolds (dist : Dist) (now : ℚ) (nowIso : String) (raws : List Entity)
    (pairs : List TrainPair) : Prop :=
  (∀ p ∈ (checkForTrainPairs dist now nowIso raws pairs).2,
    c2SpecChoice raws p ∈ (checkForTrainPairs dist now nowIso raws pairs).1 ∧
    (if c2SpecQualifies raws p.vehicleIds.1 then p.vehicleIds.2 else p.vehicleIds.1)
      ∉ (checkForTrainPairs dist now nowIso raws pairs).1) ∧
  (checkForTrainPairs dist now nowIso raws pairs).1.Nodup

/-- Placeholder diagnostic snapshot for hand-built pairs. -/
def blankCriteria : MetCriteria :=
  { distanceMeters := none, speed := none, speedDifferenceMPS := none
    bearingDifferenceDegrees := none, updatedAt := (0, 0), speeds := (none, none)
    routeIds := ("", ""), location := [] }

/-- An existing pair (A, B) for the C2 counterexample. -/
def c2Pair : TrainPair :=
  { pairKey := "A-B", vehicleIds := ("A", "B"), detectedAt := "t0"
    metCriteria := blankCriteria }

/-- Vehicle A: valid position, no trip (route_id absent). -/
def c2EntA : Entity :=
  { id := "A"
    vehicle := some {
      vehicle := some { id := some "A" }
      position := some { latitude := some 1, longitude := some 1, speed := some 0, bearing := none }
      timestamp := some 10
      trip := none }
    tripUpdate := none }

/-- Vehicle B: valid position, route "EAST". -/
def c2EntB : Entity :=
  { id := "B"
    vehicle := some {
      vehicle := some { id := some "B" }
      position := some { latitude := some 2, longitude := some 2, speed := some 0, bearing := none }
      timestamp := some 10
      trip := some { route_id := some "EAST", routeId := none, trip_id := none, tripId := none } }
    tripUpdate := none }

/-- The run of the counterexample: the close pair (A, B) survives, both vehicles are
    removed from the working array, the detect phase sees no candidates, and the
    route lookup of step 3 comes back `undefined` (not `""`), so "B" is hidden. -/
theorem c2_run_eval :
    checkForTrainPairs distZero 0 "t" [c2EntA, c2EntB] [c2Pair] = (["B"], [c2Pair]) := by
  have hbreak : breakPhase distZero [c2Pair] [c2EntA, c2EntB] = ([c2Pair], []) := by
    simp [breakPhase, breakStep, breakCheckFails, pairVehiclesValid, pairLookupDistance,
      lookupVeh, vehId, distOfPositions, optGt, distZero, c2EntA, c2EntB, c2Pair,
      maxPairDistance, List.find?]
  have hdetect : postDetectState distZero 0 "t" [c2EntA, c2EntB] [c2Pair] = ([], [c2Pair]) := by
    rw [postDetectState, hbreak]
    rw [show (([c2Pair], []) : List TrainPair × List Entity).2 = [] from rfl]
    rw [detectPhase]
    norm_num [candidateFilter]
    rw [detectOuter]
    simp
  rw [checkForTrainPairs, hdetect]
  simp [collectInvisible, invisibleChoice, lookupVeh, dedupFirst, c2Pair]

/-- C2 counterexample: vehicle A's route_id is absent, so the claim's rule hides "A",
    but the code's `routeA == ""` lookup (performed on the working array, from which
    both paired vehicles were already removed) yields `undefined`, which is not loosely
    equal to `""`, so the code hides "B". -/
theorem c2_counterexample : ¬ c2ClaimHolds distZero 0 "t" [c2EntA, c2EntB] [c2Pair] := by
  intro h
  have hp := (h.1 c2Pair (by rw [c2_run_eval]; simp)).1
  rw [c2_run_eval] at hp
  have hq : c2SpecQualifies [c2EntA, c2EntB] "A" = true := by
    simp [c2SpecQualifies, lookupVeh, vehId, c2EntA, c2EntB, List.find?]
  simp only [c2SpecChoice, c2Pair, hq, if_true] at hp
  simp at hp

/-- C2 (amended): for every pair of the final pair set, the id placed in
    `invisibleTrainIds` is the first id when the route lookup of that id in the
    post-detection working array yields the empty string (vehicles of processed pairs
    having been removed from that array, an absent vehicle yields `undefined`, which
    does not qualify), and the second id otherwise; the list contains exactly those
    choices and has no duplicates. -/
theorem c2_amended (dist : Dist) (now : ℚ) (nowIso : String) (raws : List Entity)
    (pairs : List TrainPair) :
    (checkForTrainPairs dist now nowIso raws pairs).1.Nodup ∧
    (∀ p ∈ (checkForTrainPairs dist now nowIso raws pairs).2,
      invisibleChoice (postDetectState dist now nowIso raws pairs).1 p
        ∈ (checkForTrainPairs dist now nowIso raws pairs).1) ∧
    (∀ x ∈ (checkForTrainPairs dist now nowIso raws pairs).1,
      ∃ p ∈ (checkForTrainPairs dist now nowIso raws pairs).2,
        x = invisibleChoice (postDetectState dist now nowIso raws pairs).1 p) := by
  have h1 : (checkForTrainPairs dist now nowIso raws pairs).1 =
      dedupFirst ((postDetectState dist now nowIso raws pairs).2.map
        (invisibleChoice (postDetectState dist now nowIso raws pairs).1)) := by
    rw [checkForTrainPairs, collectInvisible_eq]
  have h2 : (checkForTrainPairs dist now nowIso raws pairs).2 =
      (postDetectState dist now nowIso raws pairs).2 := rfl
  refine ⟨?_, ?_, ?_⟩
  · rw [h1]; exact nodup_dedupFirst _
  · intro p hp
    rw [h1]
    rw [mem_dedupFirst]
    exact List.mem_map_of_mem _ (h2 ▸ hp)
  · intro x hx
    rw [h1, mem_dedupFirst] at hx
    obtain ⟨p, hp, hpx⟩ := List.mem_map.mp hx
    exact ⟨p, h2 ▸ hp, hpx.symm⟩

/-- Witness for C2 (amended) at the counterexample input: "B" is the designated id of
    the surviving pair and the list is duplicate-free. -/
theorem c2_amended_witness :
    invisibleChoice (postDetectState distZero 0 "t" [c2EntA, c2EntB] [c2Pair]).1 c2Pair
      ∈ (checkForTrainPairs distZero 0 "t" [c2EntA, c2EntB] [c2Pair]).1 ∧
    (checkForTrainPairs distZero 0 "t" [c2EntA, c2EntB] [c2Pair]).1.Nodup := by
  have h := c2_amended distZero 0 "t" [c2EntA, c2EntB] [c2Pair]
  refine ⟨h.2.1 c2Pair ?_, h.1⟩
  rw [c2_run_eval]
  simp

/-! ### Claim C3: platform selection in the search pass -/

/-- Claim phase (i): first platform whose `stop_ids` intersects the train's stops. -/
def c3SpecPhase1 (train : TrainInfo) : List Platform → Option ℤ
  | [] => none
  | p :: ps =>
    match p.stop_ids, train.stops with
    | some sids, some sts =>
      if (sids.filter (fun sid => sts.any (fun s => s.stopId == sid))).length > 0 then
        some p.blockNumber
      else c3SpecPhase1 train ps
    | _, _ => c3SpecPhase1 train ps

/-- Claim phase (ii): first default platform whose bearing is within 90 degrees of the
    train's bearing (normalized difference). -/
def c3SpecPhase2 (train : TrainInfo) : List Platform → Option ℤ
  | [] => none
  | p :: ps =>
    match p.isDefault, p.bearing, train.position.bearing with
    | some true, some pb, some tb =>
      let d := |pb - tb|
      let nd := if d > 180 then 360 - d else d
      if nd ≤ 90 then some p.blockNumber else c3SpecPhase2 train ps
    | _, _, _ => c3SpecPhase2 train ps

/-- Claim phase (iii): first default platform with no bearing. -/
def c3SpecPhase3 : List Platform → Option ℤ
  | [] => none
  | p :: ps =>
    match p.isDefault, p.bearing with
    | some true, none => some p.blockNumber
    | _, _ => c3SpecPhase3 ps

/-- The claim's selection cascade. -/
def c3SpecSelect (train : TrainInfo) (ps : List Platform) : Option ℤ :=
  match c3SpecPhase1 train ps with
  | some bn => some bn
  | none =>
    match c3SpecPhase2 train ps with
    | some bn => some bn
    | none => c3SpecPhase3 ps

/-- C3 as claimed, for one map and train: whenever a block of the map has platforms
    and contains the train, the search pass assigns the cascade's block number. -/
def c3ClaimHolds (map : List TrackBlock) (train : TrainInfo) : Prop :=
  ∀ block ∈ map, ∀ ps, block.platforms = some ps →
    isPointInPolygon train.position.latitude train.position.longitude block.polygon = true →
    (findAndSetTrainBlock map train).currentBlock = c3SpecSelect train ps

/-- Default platform with bearing 0 (e.g. loaded from `360deg`), block 301. -/
def c3PlatformZero : Platform :=
  { blockNumber := 301, stop_ids := some [], isDefault := some true
    bearing := some 0, routes := none }

/-- Default platform with no bearing, block 302. -/
def c3PlatformNone : Platform :=
  { blockNumber := 302, stop_ids := some [], isDefault := some true
    bearing := none, routes := none }

/-- A 10x10 polygon around (5, 5). -/
def c3Polygon : List (ℚ × ℚ) := [(0, 0), (10, 0), (10, 10), (0, 10)]

/-- The block of the C3 counterexample. -/
def c3Block : TrackBlock :=
  { blockNumber := 100, platforms := some [c3PlatformZero, c3PlatformNone]
    altBlock := none, name := "100 - Test", priority := true
    polygon := c3Polygon, routes := none }

/-- A train inside the block heading south (bearing 180). -/
def c3Train : TrainInfo :=
  { trainId := "T"
    position := { latitude := 5, longitude := 5, timestamp := 0, speed := none
                  bearing := some 180 }
    currentBlock := none, previousBlock := none
    route := "E", tripId := none, stops := none }

/-- C3 counterexample: the platform with bearing 0 counts as bearing-less for the
    code (`if (platform.bearing)` and `!platform.bearing` are truthiness tests), so the
    code picks it in its phase 3 (block 301), while the claim's phase (ii) rejects it
    (|0-180| = 180 > 90) and its phase (iii) picks the genuinely bearing-less platform
    (block 302). -/
theorem c3_counterexample : ¬ c3ClaimHolds [c3Block] c3Train := by
  intro h
  have hb := h c3Block (List.mem_singleton.mpr rfl) [c3PlatformZero, c3PlatformNone] rfl
  have hpoly : isPointInPolygon c3Train.position.latitude c3Train.position.longitude
      c3Block.polygon = true := by
    norm_num [isPointInPolygon, c3Block, c3Polygon, c3Train, List.range, List.range.loop]
  have hcode : (findAndSetTrainBlock [c3Block] c3Train).currentBlock = some 301 := by
    rw [findAndSetTrainBlock, findBlockSearch]
    have hin : trainInBlock [c3Block] c3Train c3Block.blockNumber = true := by
      norm_num [trainInBlock, blockGet, List.find?, c3Block]
      exact hpoly
    rw [hin]
    norm_num [c3Block, phase1Find, phase2Find, phase3Find, platformRouteBlocked,
      c3PlatformZero, c3PlatformNone, c3Train, numTruthy, setTrainBlock]
  have hspec : c3SpecSelect c3Train [c3PlatformZero, c3PlatformNone] = some 302 := by
    norm_num [c3SpecSelect, c3SpecPhase1, c3SpecPhase2, c3SpecPhase3,
      c3PlatformZero, c3PlatformNone, c3Train]
  rw [hb hpoly, hspec] at hcode
  exact absurd (Option.some_injective _ hcode) (by norm_num)

/-- The train's bearing, if any, is already in `[0, 360)`. -/
def bearingNormalized (train : TrainInfo) : Prop :=
  ∀ b : ℚ, train.position.bearing = some b → 0 ≤ b ∧ b < 360

/-- A number in `[0, 360)` is a fixed point of the JS `% 360`. -/
theorem jsMod360_eq_self (b : ℚ) (h0 : 0 ≤ b) (h1 : b < 360) : jsMod360 b = b := by
  have hq0 : (0 : ℚ) ≤ b / 360 := by positivity
  have hq1 : b / 360 < 1 := by
    rw [div_lt_one (by norm_num : (0:ℚ) < 360)]
    exact h1
  have hfl : ⌊b / 360⌋ = 0 := by
    rw [Int.floor_eq_zero_iff]
    exact ⟨hq0, hq1⟩
  rw [jsMod360, jsTrunc, if_pos hq0, hfl]
  norm_num

/-- Under a normalized train bearing, the in-place normalization of phase 2 is the
    identity: the threaded train comes back unchanged. -/
theorem phase2Find_fst (train : TrainInfo) (hnorm : bearingNormalized train) :
    ∀ ps : List Platform, (phase2Find train ps).1 = train := by
  intro ps
  induction ps with
  | nil => rfl
  | cons p ps ih =>
    rw [phase2Find]
    by_cases hblk : platformRouteBlocked train p = true
    · simp only [hblk, if_true]; exact ih
    · simp only [hblk, if_false]
      by_cases hdef : p.isDefault == some true
      · simp only [hdef, if_true]
        cases hpb : p.bearing with
        | none => exact ih
        | some pb =>
          by_cases hpb0 : (pb != 0) = true
          · simp only [hpb0, if_true]
            cases htb : train.position.bearing with
            | none => exact ih
            | some tb =>
              by_cases htb0 : (tb != 0) = true
              · simp only [htb0, if_true]
                have hbnd := hnorm tb htb
                have hmod : jsMod360 tb = tb := jsMod360_eq_self tb hbnd.1 hbnd.2
                have htr : ({ train with position :=
                    { train.position with bearing := some (jsMod360 tb) } }) = train := by
                  rw [hmod, ← htb]
                rw [htr]
                by_cases hle : (if |pb - jsMod360 tb| > 180 then 360 - |pb - jsMod360 tb|
                    else |pb - jsMod360 tb|) ≤ 90
                · rw [if_pos hle]; simp
                · rw [if_neg hle]; exact ih
              · simp only [htb0, if_false]; exact ih
          · simp only [hpb0, if_false]; exact ih
      · simp only [hdef, if_false]; exact ih

/-- The amended selection cascade: the code's own phases, evaluated on the unmutated
    train (legitimate when the bearing is normalized, by `phase2Find_fst`). -/
def c3AmendedSelect (train : TrainInfo) (ps : List Platform) : Option ℤ :=
  match phase1Find train ps with
  | some bn => some bn
  | none =>
    match (phase2Find train ps).2 with
    | some bn => some bn
    | none => phase3Find train ps

/-- The search loop on a suffix whose first containing block has platforms selecting
    `bn` yields `bn` with the train unchanged. -/
theorem findBlockSearch_first (map : List TrackBlock) (train : TrainInfo)
    (hnorm : bearingNormalized train) :
    ∀ (l : List TrackBlock) (block : TrackBlock) (ps : List Platform) (bn : ℤ),
      l.find? (fun b => trainInBlock map train b.blockNumber) = some block →
      block.platforms = some ps →
      c3AmendedSelect train ps = some bn →
      findBlockSearch map train l = (train, some bn) := by
  intro l
  induction l with
  | nil => intro block ps bn hfind; simp [List.find?] at hfind
  | cons b rest ih =>
    intro block ps bn hfind hps hsel
    rw [findBlockSearch]
    cases hc : trainInBlock map train b.blockNumber with
    | false =>
      rw [List.find?_cons_of_neg _ (by simp [hc])] at hfind
      simp only [Bool.false_eq_true, if_false]
      exact ih block ps bn hfind hps hsel
    | true =>
      rw [List.find?_cons_of_pos _ (by simp [hc])] at hfind
      have hbb : b = block := by simpa using hfind
      subst hbb
      rw [c3AmendedSelect] at hsel
      have hfst := phase2Find_fst train hnorm ps
      cases hp1 : phase1Find train ps with
      | some bn1 =>
        rw [hp1] at hsel
        simp only [Option.some.injEq] at hsel
        simp only [hc, if_true, hps, hp1, hsel]
      | none =>
        cases hp2 : (phase2Find train ps).2 with
        | some bn2 =>
          rw [hp1] at hsel
          simp only [hp2, Option.some.injEq] at hsel
          simp only [hc, if_true, hps, hp1, hp2, hfst, hsel]
        | none =>
          rw [hp1] at hsel
          simp only [hp2] at hsel
          simp only [hc, if_true, hps, hp1, hp2, hfst, hsel]

/-- C3 (amended): for a train whose bearing is normalized, if the first block of the
    map (in iteration order) containing the train has platforms, the assigned
    `currentBlock` is: the blockNumber of the first route-permitting platform whose
    stop_ids intersect the train's stops; failing that, the first route-permitting
    default platform with a nonzero bearing within 90 degrees of the train's nonzero
    bearing; failing that, the first route-permitting default platform with no (or a
    zero) bearing - platforms and trains with bearing 0 count as bearing-less because
    of JS truthiness; `previousBlock` is set per `setTrainBlock`. -/
theorem c3_amended (map : List TrackBlock) (train : TrainInfo) (block : TrackBlock)
    (ps : List Platform) (bn : ℤ)
    (hnorm : bearingNormalized train)
    (hfirst : map.find? (fun b => trainInBlock map train b.blockNumber) = some block)
    (hps : block.platforms = some ps)
    (hsel : c3AmendedSelect train ps = some bn) :
    (findAndSetTrainBlock map train).currentBlock = some bn ∧
    (findAndSetTrainBlock map train).previousBlock =
      (if train.previousBlock = none then some 0 else train.currentBlock) := by
  rw [findAndSetTrainBlock, findBlockSearch_first map train hnorm map block ps bn hfirst hps hsel]
  simp only [setTrainBlock]
  constructor
  · trivial
  · by_cases hpb : train.previousBlock = none
    · simp [hpb]
    · simp [hpb]

/-- Platform P3 of the claim's concrete scenario. -/
def c3P3 : Platform :=
  { blockNumber := 303, stop_ids := some ["S3"], isDefault := none
    bearing := none, routes := none }

/-- Platform P4 of the claim's concrete scenario. -/
def c3P4 : Platform :=
  { blockNumber := 304, stop_ids := some ["S4"], isDefault := none
    bearing := none, routes := none }

/-- Block 300 of the claim's concrete scenario. -/
def c3Block300 : TrackBlock :=
  { blockNumber := 300, platforms := some [c3P3, c3P4]
    altBlock := none, name := "300 - Station", priority := true
    polygon := c3Polygon, routes := none }

/-- Train inside block 300 scheduled to stop at S4. -/
def c3TrainS4 : TrainInfo :=
  { trainId := "T4"
    position := { latitude := 5, longitude := 5, timestamp := 0, speed := none, bearing := none }
    currentBlock := none, previousBlock := none
    route := "E", tripId := none
    stops := some [{ stopId := "S4", departureTime := some 100 }] }

/-- Witness for C3 (amended), which is also the claim's own concrete scenario: the
    train with upcoming stop S4 inside block 300 gets `currentBlock = 304`. -/
theorem c3_amended_witness :
    (findAndSetTrainBlock [c3Block300] c3TrainS4).currentBlock = some 304 ∧
    (findAndSetTrainBlock [c3Block300] c3TrainS4).previousBlock = some 0 := by
  have hnorm : bearingNormalized c3TrainS4 := by
    intro b hb
    simp [c3TrainS4] at hb
  have hin : trainInBlock [c3Block300] c3TrainS4 c3Block300.blockNumber = true := by
    norm_num [trainInBlock, blockGet, List.find?, c3Block300, c3TrainS4, c3Polygon,
      isPointInPolygon, List.range, List.range.loop]
  have hfirst : List.find? (fun b => trainInBlock [c3Block300] c3TrainS4 b.blockNumber)
      [c3Block300] = some c3Block300 := by
    simp only [List.find?, hin]
  have hsel : c3AmendedSelect c3TrainS4 [c3P3, c3P4] = some 304 := by
    rfl
  have h := c3_amended [c3Block300] c3TrainS4 c3Block300 [c3P3, c3P4] 304 hnorm hfirst rfl hsel
  refine ⟨h.1, ?_⟩
  rw [h.2]
  simp [c3TrainS4]

/-! ### Claim C6: detect-phase pair criteria -/

/-- The working array of the inner loop only shrinks (as a set of members). -/
theorem detectInner_raws_subset (dist : Dist) (nowIso : String) (a : Entity) :
    ∀ j raws pairs, ∀ e ∈ (detectInner dist nowIso a j raws pairs).1, e ∈ raws := by
  intro j raws pairs
  induction j, raws, pairs using detectInner.induct dist nowIso a with
  | case1 j raws pairs h b hp ih =>
    rw [detectInner]
    simp only [dif_pos h, hp]
    exact ih
  | case2 j raws pairs h b p hp raws' ih =>
    rw [detectInner]
    simp only [dif_pos h, hp]
    intro e he
    exact List.mem_of_mem_filter (ih e he)
  | case3 j raws pairs h =>
    rw [detectInner]
    simp only [dif_neg h]
    intro e he
    exact he

/-- Every pair present after the inner loop was already present or was built by
    `tryPair` from the captured train `a` and a member of the working array. -/
theorem detectInner_pairs_sound (dist : Dist) (nowIso : String) (a : Entity) :
    ∀ j raws pairs, ∀ p ∈ (detectInner dist nowIso a j raws pairs).2,
      p ∈ pairs ∨ ∃ y ∈ raws, tryPair dist nowIso a y = some p := by
  intro j raws pairs
  induction j, raws, pairs using detectInner.induct dist nowIso a with
  | case1 j raws pairs h b hp ih =>
    rw [detectInner]
    simp only [dif_pos h, hp]
    exact ih
  | case2 j raws pairs h b p hp raws' ih =>
    rw [detectInner]
    simp only [dif_pos h, hp]
    intro q hq
    rcases ih q hq with hq' | ⟨y, hy, hty⟩
    · rcases List.mem_append.mp hq' with hq'' | hq''
      · exact Or.inl hq''
      · refine Or.inr ⟨raws[j], List.getElem_mem h, ?_⟩
        rw [hp]
        simp only [List.mem_singleton] at hq''
        rw [hq'']
    · exact Or.inr ⟨y, List.mem_of_mem_filter hy, hty⟩
  | case3 j raws pairs h =>
    rw [detectInner]
    simp only [dif_neg h]
    intro q hq
    exact Or.inl hq

/-- Every pair present after the detect loops was already present or was built by
    `tryPair` from two members of the initial working array. -/
theorem detectOuter_pairs_sound (dist : Dist) (nowIso : String) (cands0 : List Entity) :
    ∀ i raws pairs, (∀ e ∈ raws, e ∈ cands0) →
      ∀ p ∈ (detectOuter dist nowIso i raws pairs).2,
        p ∈ pairs ∨ ∃ x ∈ cands0, ∃ y ∈ cands0, tryPair dist nowIso x y = some p := by
  intro i raws pairs
  induction i, raws, pairs using detectOuter.induct dist nowIso with
  | case1 i raws pairs h st ih =>
    intro hsub p hp
    rw [detectOuter] at hp
    simp only [dif_pos h] at hp
    have hsub' : ∀ e ∈ st.1, e ∈ cands0 := fun e he =>
      hsub e (detectInner_raws_subset dist nowIso raws[i] (i + 1) raws pairs e he)
    rcases ih hsub' p hp with hp' | hp'
    · rcases detectInner_pairs_sound dist nowIso raws[i] (i + 1) raws pairs p hp' with h0 | ⟨y, hy, hty⟩
      · exact Or.inl h0
      · exact Or.inr ⟨raws[i], hsub _ (List.getElem_mem h), y, hsub y hy, hty⟩
    · exact Or.inr hp'
  | case2 i raws pairs h =>
    intro hsub p hp
    rw [detectOuter] at hp
    simp only [dif_neg h] at hp
    exact Or.inl hp

/-- The inner loop appends new pairs at the end. -/
theorem detectInner_pairs_prefix (dist : Dist) (nowIso : String) (a : Entity) :
    ∀ j raws pairs, ∃ l, (detectInner dist nowIso a j raws pairs).2 = pairs ++ l := by
  intro j raws pairs
  induction j, raws, pairs using detectInner.induct dist nowIso a with
  | case1 j raws pairs h b hp ih =>
    rw [detectInner]
    simp only [dif_pos h, hp]
    exact ih
  | case2 j raws pairs h b p hp raws' ih =>
    rw [detectInner]
    simp only [dif_pos h, hp]
    obtain ⟨l, hl⟩ := ih
    exact ⟨p :: l, by rw [hl, List.append_assoc]; rfl⟩
  | case3 j raws pairs h =>
    rw [detectInner]
    simp only [dif_neg h]
    exact ⟨[], by simp⟩

/-- The detect loops append new pairs at the end. -/
theorem detectOuter_pairs_prefix (dist : Dist) (nowIso : String) :
    ∀ i raws pairs, ∃ l, (detectOuter dist nowIso i raws pairs).2 = pairs ++ l := by
  intro i raws pairs
  induction i, raws, pairs using detectOuter.induct dist nowIso with
  | case1 i raws pairs h st ih =>
    rw [detectOuter]
    simp only [dif_pos h]
    obtain ⟨l1, hl1⟩ := detectInner_pairs_prefix dist nowIso raws[i] (i + 1) raws pairs
    obtain ⟨l2, hl2⟩ := ih
    refine ⟨l1 ++ l2, ?_⟩
    rw [hl2, hl1, List.append_assoc]
  | case2 i raws pairs h =>
    rw [detectOuter]
    simp only [dif_neg h]
    exact ⟨[], by simp⟩

/-- The pairs appended by the detect phase of one run. -/
def detectAdded (dist : Dist) (now : ℚ) (nowIso : String) (raws : List Entity)
    (pairs : List TrainPair) : List TrainPair :=
  (checkForTrainPairs dist now nowIso raws pairs).2.drop (breakPhase dist pairs raws).1.length

/-- C6 as claimed, for one input state: over the candidate set, a new pair on two
    distinct candidates is added exactly when the five criteria hold. -/
def c6ClaimHolds (dist : Dist) (now : ℚ) (nowIso : String) (raws : List Entity)
    (pairs : List TrainPair) : Prop :=
  ∀ a ∈ candidateFilter now (breakPhase dist pairs raws).2,
    ∀ b ∈ candidateFilter now (breakPhase dist pairs raws).2,
      a ≠ b →
      ((∃ p ∈ detectAdded dist now nowIso raws pairs,
          p.vehicleIds = sortPairIds a.id b.id) ↔ pairCriteria dist a b = true)

/-- A candidate train for the C6 counterexample. -/
def c6Ent (eid : String) : Entity :=
  { id := eid
    vehicle := some {
      vehicle := some { id := some eid }
      position := some { latitude := some 1, longitude := some 1, speed := some 10
                         bearing := some 90 }
      timestamp := some 100
      trip := some { route_id := some "E", routeId := none, trip_id := none, tripId := none } }
    tripUpdate := none }

/-- The three mutually pairable candidates. -/
def c6Raws : List Entity := [c6Ent "A", c6Ent "B", c6Ent "C"]

/-- Any two of the C6 candidates satisfy all five criteria (they share position,
    speed, bearing, route and timestamp; the distance function is constantly 0). -/
theorem c6_criteria (x y : String) : pairCriteria distZero (c6Ent x) (c6Ent y) = true := by
  have hmax : max ((0:ℚ) - 2 * trainLength) 0 = 0 := by
    rw [max_eq_right]
    norm_num [trainLength]
  norm_num [pairCriteria, c6Ent, entTs, entPos, entRoute, distOfPositions, distZero, optGt,
    calculateBearingDifference, strTruthy, trainLength, maxSpeedDiff, maxBearingDiff, hmax]

/-- The sorted ids of the (A, B) pair. -/
theorem c6_mkPair_ids :
    (mkPair distZero "t" (c6Ent "A") (c6Ent "B")).vehicleIds = ("A", "B") := by
  have hle : ("A" : String) ≤ "B" := by
    rw [String.le_iff_toList_le]
    decide
  simp [mkPair, sortPairIds, c6Ent, hle]

/-- The detect loops on the three candidates produce exactly the (A, B) pair: after it
    is formed, the working array shrinks to [C] and both loops run out of indices, so
    neither (A, C) nor (B, C) is ever examined. -/
theorem c6_detect_eval :
    detectOuter distZero "t" 0 c6Raws [] =
      ([c6Ent "C"], [mkPair distZero "t" (c6Ent "A") (c6Ent "B")]) := by
  have htpAB : tryPair distZero "t" (c6Ent "A") (c6Ent "B") =
      some (mkPair distZero "t" (c6Ent "A") (c6Ent "B")) := by
    rw [tryPair, if_pos (c6_criteria "A" "B")]
  have hfilter : c6Raws.filter (fun e =>
      vehId e != some (mkPair distZero "t" (c6Ent "A") (c6Ent "B")).vehicleIds.1 &&
      vehId e != some (mkPair distZero "t" (c6Ent "A") (c6Ent "B")).vehicleIds.2) =
      [c6Ent "C"] := by
    rw [c6_mkPair_ids]
    simp only [c6Raws]
    rw [List.filter_cons, List.filter_cons, List.filter_cons, List.filter_nil]
    norm_num [vehId, c6Ent]
    decide
  have h0 : detectInner distZero "t" (c6Ent "A") 2 [c6Ent "C"]
      [mkPair distZero "t" (c6Ent "A") (c6Ent "B")] =
      ([c6Ent "C"], [mkPair distZero "t" (c6Ent "A") (c6Ent "B")]) := by
    rw [detectInner]
    norm_num
  have h1 : detectInner distZero "t" (c6Ent "A") 1 c6Raws [] =
      ([c6Ent "C"], [mkPair distZero "t" (c6Ent "A") (c6Ent "B")]) := by
    rw [detectInner]
    have hlt : 1 < c6Raws.length := by norm_num [c6Raws]
    rw [dif_pos hlt]
    have hget : c6Raws[1] = c6Ent "B" := rfl
    simp only [hget, htpAB, hfilter, List.nil_append]
    exact h0
  have h2 : detectOuter distZero "t" 1 [c6Ent "C"]
      [mkPair distZero "t" (c6Ent "A") (c6Ent "B")] =
      ([c6Ent "C"], [mkPair distZero "t" (c6Ent "A") (c6Ent "B")]) := by
    rw [detectOuter]
    norm_num
  rw [detectOuter]
  have hlt : 0 < c6Raws.length := by norm_num [c6Raws]
  rw [dif_pos hlt]
  have hget : c6Raws[0] = c6Ent "A" := rfl
  simp only [hget, h1]
  exact h2

/-- The candidate filter keeps all three C6 candidates. -/
theorem c6_cand_eval : candidateFilter 100 c6Raws = c6Raws := by
  have hs : forall x, speedOk (c6Ent x) = true := by
    intro x
    norm_num [speedOk, entSpeed, entPos, c6Ent, minSpeed]
  have hco : forall x, coordsOk (c6Ent x) = true := by
    intro x
    norm_num [coordsOk, entLat, entLon, entPos, c6Ent, numTruthy]
  have hf : forall x, freshOk 100 (c6Ent x) = true := by
    intro x
    norm_num [freshOk, entTs, c6Ent]
  have hmem : forall e, e ∈ c6Raws -> exists x, e = c6Ent x := by
    intro e he
    simp only [c6Raws, List.mem_cons, List.not_mem_nil, or_false] at he
    rcases he with rfl | rfl | rfl
    · exact ⟨"A", rfl⟩
    · exact ⟨"B", rfl⟩
    · exact ⟨"C", rfl⟩
  rw [candidateFilter]
  have hmem2 : forall e, e ∈ (c6Raws.filter speedOk).filter coordsOk -> exists x, e = c6Ent x :=
    fun e he => hmem e (List.mem_of_mem_filter (List.mem_of_mem_filter he))
  have hmem1 : forall e, e ∈ c6Raws.filter speedOk -> exists x, e = c6Ent x :=
    fun e he => hmem e (List.mem_of_mem_filter he)
  rw [List.filter_eq_self.mpr (fun e he => by obtain ⟨x, rfl⟩ := hmem2 e he; exact hf x)]
  rw [List.filter_eq_self.mpr (fun e he => by obtain ⟨x, rfl⟩ := hmem1 e he; exact hco x)]
  rw [List.filter_eq_self.mpr (fun e he => by obtain ⟨x, rfl⟩ := hmem e he; exact hs x)]

/-- The full C6 run: one pair added, B hidden. -/
theorem c6_run_eval :
    checkForTrainPairs distZero 100 "t" c6Raws [] =
      (["B"], [mkPair distZero "t" (c6Ent "A") (c6Ent "B")]) := by
  have hpost : postDetectState distZero 100 "t" c6Raws [] =
      ([c6Ent "C"], [mkPair distZero "t" (c6Ent "A") (c6Ent "B")]) := by
    rw [postDetectState]
    have hbreak : breakPhase distZero [] c6Raws = ([], c6Raws) := rfl
    rw [hbreak, detectPhase, c6_cand_eval, c6_detect_eval]
  have hchoice : invisibleChoice [c6Ent "C"] (mkPair distZero "t" (c6Ent "A") (c6Ent "B"))
      = "B" := by
    rw [invisibleChoice, c6_mkPair_ids]
    rfl
  rw [checkForTrainPairs, hpost]
  rw [collectInvisible_eq]
  simp only [List.map_cons, List.map_nil, hchoice]
  rw [dedupFirst.eq_def]
  simp [dedupFirst]

/-- C6 counterexample: B and C are distinct candidates satisfying all five criteria,
    yet no (B, C) pair is added - the greedy scan consumed B into the (A, B) pair and
    removed it from the working array. The "exactly when" of the claim fails. -/
theorem c6_counterexample : ¬ c6ClaimHolds distZero 100 "t" c6Raws [] := by
  intro h
  have hBmem : c6Ent "B" ∈ candidateFilter 100 (breakPhase distZero [] c6Raws).2 := by
    rw [show (breakPhase distZero [] c6Raws).2 = c6Raws from rfl, c6_cand_eval]
    simp [c6Raws]
  have hCmem : c6Ent "C" ∈ candidateFilter 100 (breakPhase distZero [] c6Raws).2 := by
    rw [show (breakPhase distZero [] c6Raws).2 = c6Raws from rfl, c6_cand_eval]
    simp [c6Raws]
  have hne : c6Ent "B" ≠ c6Ent "C" := by
    intro he
    have := congrArg Entity.id he
    simp [c6Ent] at this
  have hiff := h (c6Ent "B") hBmem (c6Ent "C") hCmem hne
  have hcrit := c6_criteria "B" "C"
  have hadded : detectAdded distZero 100 "t" c6Raws [] =
      [mkPair distZero "t" (c6Ent "A") (c6Ent "B")] := by
    rw [detectAdded, c6_run_eval]
    rfl
  have hex := hiff.mpr hcrit
  rw [hadded] at hex
  obtain ⟨p, hp, hpids⟩ := hex
  simp only [List.mem_singleton] at hp
  subst hp
  rw [c6_mkPair_ids] at hpids
  have hsort : sortPairIds (c6Ent "B").id (c6Ent "C").id = ("B", "C") := by
    have hle : ("B" : String) ≤ "C" := by
      rw [String.le_iff_toList_le]
      decide
    simp [sortPairIds, c6Ent, hle]
  rw [hsort] at hpids
  simp at hpids

/-- C6 (amended): every pair added by the detect phase is built (by `mkPair`) from two
    members of the candidate set that satisfy all five criteria; the converse of the
    claim does not hold because the scan is greedy - once a train is consumed into a
    pair it is removed from the working array, so later criteria-satisfying
    combinations involving it are never examined. -/
theorem c6_amended (dist : Dist) (now : ℚ) (nowIso : String) (raws : List Entity)
    (pairs : List TrainPair) :
    ∀ p ∈ (checkForTrainPairs dist now nowIso raws pairs).2,
      p ∈ (breakPhase dist pairs raws).1 ∨
      ∃ a ∈ candidateFilter now (breakPhase dist pairs raws).2,
        ∃ b ∈ candidateFilter now (breakPhase dist pairs raws).2,
          pairCriteria dist a b = true ∧ p = mkPair dist nowIso a b := by
  intro p hp
  have hp' : p ∈ (detectOuter dist nowIso 0
      (candidateFilter now (breakPhase dist pairs raws).2) (breakPhase dist pairs raws).1).2 :=
    hp
  rcases detectOuter_pairs_sound dist nowIso
      (candidateFilter now (breakPhase dist pairs raws).2) 0 _ _ (fun e he => he) p hp' with
    h0 | ⟨x, hx, y, hy, hxy⟩
  · exact Or.inl h0
  · obtain ⟨hcrit, hpmk⟩ := (tryPair_eq_some dist nowIso x y p).mp hxy
    exact Or.inr ⟨x, hx, y, hy, hcrit, hpmk⟩

/-- Witness for C6 (amended) at the concrete three-candidate run: the added (A, B)
    pair is traced back to candidates satisfying the criteria. -/
theorem c6_amended_witness :
    mkPair distZero "t" (c6Ent "A") (c6Ent "B") ∈ (breakPhase distZero [] c6Raws).1 ∨
    ∃ a ∈ candidateFilter 100 (breakPhase distZero [] c6Raws).2,
      ∃ b ∈ candidateFilter 100 (breakPhase distZero [] c6Raws).2,
        pairCriteria distZero a b = true ∧
          mkPair distZero "t" (c6Ent "A") (c6Ent "B") = mkPair distZero "t" a b := by
  apply c6_amended distZero 100 "t" c6Raws []
  rw [c6_run_eval]
  simp

/-! ### Claim C5: distance invariant of the pair set -/

/-- C5 as claimed, for one input state: every pair of the returned set whose vehicles
    appear in the input list with valid positions is within the break threshold. -/
def c5ClaimHolds (dist : Dist) (now : ℚ) (nowIso : String) (raws : List Entity)
    (pairs : List TrainPair) : Prop :=
  ∀ p ∈ (checkForTrainPairs dist now nowIso raws pairs).2,
    pairVehiclesValid raws p = true →
    ∀ d, pairLookupDistance dist raws p = some d → d ≤ maxPairDistance

/-- A distance function built from comparisons only: 5000 m whenever one latitude is
    4, else 0. It is symmetric. -/
def c5Dist : Dist := fun la _ lb _ => if la == 4 || lb == 4 then 5000 else 0

/-- C5 counterexample entity: id, latitude. -/
def c5Ent (eid : String) (lat : ℚ) : Entity :=
  { id := eid
    vehicle := some {
      vehicle := some { id := some eid }
      position := some { latitude := some lat, longitude := some 1, speed := some 0
                         bearing := none }
      timestamp := some 10
      trip := none }
    tripUpdate := none }

/-- The input entities: A at 1, B at 2, C at 4 (so A-C are 5000 m apart). -/
def c5Raws : List Entity := [c5Ent "A" 1, c5Ent "B" 2, c5Ent "C" 4]

/-- Existing pair (A, B): close. -/
def c5PairAB : TrainPair :=
  { pairKey := "A-B", vehicleIds := ("A", "B"), detectedAt := "t0", metCriteria := blankCriteria }

/-- Existing pair (A, C): 5000 m apart, sharing vehicle A with the first pair. -/
def c5PairAC : TrainPair :=
  { pairKey := "A-C", vehicleIds := ("A", "C"), detectedAt := "t0", metCriteria := blankCriteria }

/-- The run of the C5 counterexample: processing (A, B) keeps the pair and removes A
    and B from the working array, so when (A, C) is processed vehicle A is no longer
    found and the distance check is skipped; both pairs survive. -/
theorem c5_run_eval :
    checkForTrainPairs c5Dist 0 "t" c5Raws [c5PairAB, c5PairAC] =
      (["B", "C"], [c5PairAB, c5PairAC]) := by
  have hbreak : breakPhase c5Dist [c5PairAB, c5PairAC] c5Raws =
      ([c5PairAB, c5PairAC], []) := by rfl
  have hpost : postDetectState c5Dist 0 "t" c5Raws [c5PairAB, c5PairAC] =
      ([], [c5PairAB, c5PairAC]) := by
    rw [postDetectState, hbreak, detectPhase]
    rw [show candidateFilter 0 ([] : List Entity) = [] from rfl]
    rw [detectOuter]
    simp
  rw [checkForTrainPairs, hpost, collectInvisible_eq]
  simp only [List.map_cons, List.map_nil]
  rw [show invisibleChoice [] c5PairAB = "B" from rfl,
    show invisibleChoice [] c5PairAC = "C" from rfl]
  rw [dedupFirst.eq_def]
  simp [dedupFirst]

/-- C5 counterexample: the surviving pair (A, C) has both vehicles in the input list
    with valid positions and a distance of 5000 m > 2000 m; its check was skipped
    because the earlier pair (A, B) shares vehicle A and its processing removed A from
    the working array. -/
theorem c5_counterexample : ¬ c5ClaimHolds c5Dist 0 "t" c5Raws [c5PairAB, c5PairAC] := by
  intro h
  have hmem : c5PairAC ∈ (checkForTrainPairs c5Dist 0 "t" c5Raws [c5PairAB, c5PairAC]).2 := by
    rw [c5_run_eval]
    simp
  have hvalid : pairVehiclesValid c5Raws c5PairAC = true := by rfl
  have hdist : pairLookupDistance c5Dist c5Raws c5PairAC = some 5000 := by rfl
  have := h c5PairAC hmem hvalid 5000 hdist
  rw [maxPairDistance] at this
  norm_num at this

/-- Two pairs share no vehicle id. -/
def pairsDisjoint (p q : TrainPair) : Prop :=
  p.vehicleIds.1 ≠ q.vehicleIds.1 ∧ p.vehicleIds.1 ≠ q.vehicleIds.2 ∧
    p.vehicleIds.2 ≠ q.vehicleIds.1 ∧ p.vehicleIds.2 ≠ q.vehicleIds.2

/-- `find?` is unaffected by filtering with a predicate that keeps every match. -/
theorem find?_filter_of_keep {α : Type} (p keep : α → Bool)
    (h : ∀ e, p e = true → keep e = true) :
    ∀ l : List α, (l.filter keep).find? p = l.find? p := by
  intro l
  induction l with
  | nil => rfl
  | cons e l ih =>
    by_cases hp : p e = true
    · rw [List.filter_cons_of_pos (h e hp), List.find?_cons_of_pos _ hp,
        List.find?_cons_of_pos _ hp]
    · have hp' : p e = false := by simpa using hp
      rw [List.find?_cons_of_neg _ (by simp [hp'])]
      cases hk : keep e with
      | true =>
        rw [List.filter_cons_of_pos hk, List.find?_cons_of_neg _ (by simp [hp'])]
        exact ih
      | false =>
        rw [List.filter_cons_of_neg (by simp [hk])]
        exact ih

/-- Membership in the pair list only shrinks along the break fold. -/
theorem breakFold_acc_subset (dist : Dist) :
    ∀ (todo : List TrainPair) (acc : List TrainPair) (raws : List Entity),
      ∀ p ∈ (todo.foldl (breakStep dist) (acc, raws)).1, p ∈ acc := by
  intro todo
  induction todo with
  | nil => intro acc raws p hp; exact hp
  | cons q rest ih =>
    intro acc raws p hp
    rw [List.foldl_cons] at hp
    have h1 := ih (breakStep dist (acc, raws) q).1 (breakStep dist (acc, raws) q).2 p hp
    rw [breakStep] at h1
    by_cases hchk : breakCheckFails dist (acc, raws).2 q = true
    · simp only [hchk, if_true] at h1
      exact List.mem_of_mem_filter h1
    · simp only [hchk, if_false] at h1
      exact h1

/-- Membership in the entity array only shrinks along the break fold. -/
theorem breakFold_raws_subset (dist : Dist) :
    ∀ (todo : List TrainPair) (acc : List TrainPair) (raws : List Entity),
      ∀ e ∈ (todo.foldl (breakStep dist) (acc, raws)).2, e ∈ raws := by
  intro todo
  induction todo with
  | nil => intro acc raws e he; exact he
  | cons q rest ih =>
    intro acc raws e he
    rw [List.foldl_cons] at he
    have h1 := ih (breakStep dist (acc, raws) q).1 (breakStep dist (acc, raws) q).2 e he
    rw [breakStep] at h1
    exact List.mem_of_mem_filter h1

/-- The validity check only depends on the two lookups. -/
theorem pairVehiclesValid_congr (raws raws0 : List Entity) (p : TrainPair)
    (h1 : lookupVeh raws p.vehicleIds.1 = lookupVeh raws0 p.vehicleIds.1)
    (h2 : lookupVeh raws p.vehicleIds.2 = lookupVeh raws0 p.vehicleIds.2) :
    pairVehiclesValid raws p = pairVehiclesValid raws0 p := by
  rw [pairVehiclesValid, pairVehiclesValid, h1, h2]

/-- The pair distance only depends on the two lookups. -/
theorem pairLookupDistance_congr (dist : Dist) (raws raws0 : List Entity) (p : TrainPair)
    (h1 : lookupVeh raws p.vehicleIds.1 = lookupVeh raws0 p.vehicleIds.1)
    (h2 : lookupVeh raws p.vehicleIds.2 = lookupVeh raws0 p.vehicleIds.2) :
    pairLookupDistance dist raws p = pairLookupDistance dist raws0 p := by
  rw [pairLookupDistance, pairLookupDistance, h1, h2]

/-- Removing the vehicles of a disjoint pair does not change a lookup. -/
theorem lookupVeh_filter_disjoint (raws : List Entity) (q : TrainPair) (x : String)
    (hx1 : x ≠ q.vehicleIds.1) (hx2 : x ≠ q.vehicleIds.2) :
    lookupVeh (raws.filter (fun e =>
      vehId e != some q.vehicleIds.1 && vehId e != some q.vehicleIds.2)) x =
      lookupVeh raws x := by
  rw [lookupVeh, lookupVeh, find?_filter_of_keep]
  intro e he
  have hv : vehId e = some x := by simpa using he
  rw [hv]
  simp [hx1, hx2]

/-- Every pair of a pairwise-disjoint incoming list that survives the break fold and
    whose vehicles are found with valid positions in the reference list (with which
    the working array initially agrees on those lookups) is within the break
    threshold. -/
theorem breakFold_sound (dist : Dist) (raws0 : List Entity) :
    ∀ (todo : List TrainPair) (acc : List TrainPair) (raws : List Entity),
      List.Pairwise pairsDisjoint todo →
      (∀ q ∈ todo, lookupVeh raws q.vehicleIds.1 = lookupVeh raws0 q.vehicleIds.1 ∧
        lookupVeh raws q.vehicleIds.2 = lookupVeh raws0 q.vehicleIds.2) →
      ∀ p ∈ todo, p ∈ (todo.foldl (breakStep dist) (acc, raws)).1 →
        pairVehiclesValid raws0 p = true →
        ∀ d, pairLookupDistance dist raws0 p = some d → d ≤ maxPairDistance := by
  intro todo
  induction todo with
  | nil => intro acc raws _ _ p hp; simp at hp
  | cons q rest ih =>
    intro acc raws hdisj hpres p hptodo hpfold hvalid d hd
    obtain ⟨hhead, htail⟩ := List.pairwise_cons.mp hdisj
    rw [List.foldl_cons] at hpfold
    rcases List.mem_cons.mp hptodo with rfl | hprest
    · -- p is the pair processed at this step
      by_contra hgt
      push_neg at hgt
      have hpq := hpres p (List.mem_cons_self _ _)
      have hchk : breakCheckFails dist raws p = true := by
        rw [breakCheckFails, pairVehiclesValid_congr raws raws0 p hpq.1 hpq.2,
          pairLookupDistance_congr dist raws raws0 p hpq.1 hpq.2, hvalid, hd]
        simp only [Bool.true_and, optGt]
        exact decide_eq_true hgt
      have hmem := breakFold_acc_subset dist rest (breakStep dist (acc, raws) p).1
        (breakStep dist (acc, raws) p).2 p hpfold
      rw [breakStep] at hmem
      simp only [hchk, if_true] at hmem
      have := List.of_mem_filter hmem
      simp at this
    · -- p is processed later
      refine ih (breakStep dist (acc, raws) q).1 (breakStep dist (acc, raws) q).2 htail
        ?_ p hprest hpfold hvalid d hd
      intro q' hq'
      have hdq := hhead q' hq'
      have hpr := hpres q' (List.mem_cons_of_mem _ hq')
      rw [breakStep]
      constructor
      · rw [lookupVeh_filter_disjoint raws q q'.vehicleIds.1
          (Ne.symm hdq.1) (Ne.symm hdq.2.2.1), hpr.1]
      · rw [lookupVeh_filter_disjoint raws q q'.vehicleIds.2
          (Ne.symm hdq.2.1) (Ne.symm hdq.2.2.2), hpr.2]

/-- When entity ids coincide with vehicle ids and are unique, the lookup of an
    entity's id finds that entity. -/
theorem lookupVeh_self (raws : List Entity)
    (hids : ∀ e ∈ raws, vehId e = some e.id)
    (huniq : ∀ e ∈ raws, ∀ e' ∈ raws, e.id = e'.id → e = e') :
    ∀ a ∈ raws, lookupVeh raws a.id = a.vehicle := by
  have hfind : ∀ a ∈ raws, raws.find? (fun e => vehId e == some a.id) = some a := by
    induction raws with
    | nil => intro a ha; simp at ha
    | cons e l ih =>
      intro a ha
      by_cases hmatch : (vehId e == some a.id) = true
      · have he : vehId e = some e.id := hids e (List.mem_cons_self _ _)
        rw [he] at hmatch
        have heq : e.id = a.id := by simpa using hmatch
        have hea : e = a := huniq e (List.mem_cons_self _ _) a ha heq
        subst hea
        simp only [List.find?]
        rw [he]
        simp
      · have hm' : (vehId e == some a.id) = false := by simpa using hmatch
        have ha' : a ∈ l := by
          rcases List.mem_cons.mp ha with rfl | h
          · exact absurd (by rw [hids a (List.mem_cons_self _ _)]; simp) hmatch
          · exact h
        simp only [List.find?]
        rw [hm']
        exact ih (fun e' he' => hids e' (List.mem_cons_of_mem _ he'))
          (fun e' he' e'' he'' => huniq e' (List.mem_cons_of_mem _ he')
            e'' (List.mem_cons_of_mem _ he'')) a ha'
  intro a ha
  rw [lookupVeh, hfind a ha]
  rfl

/-- A passed distance criterion bounds the raw distance by `4 * trainLength`. -/
theorem pairCriteria_dist_bound (dist : Dist) (a b : Entity)
    (h : pairCriteria dist a b = true) :
    ∃ pa pb, entPos a = some pa ∧ entPos b = some pb ∧
      ∀ d, distOfPositions dist pa pb = some d → d ≤ 4 * trainLength := by
  rw [pairCriteria] at h
  cases hta : entTs a with
  | none => rw [hta] at h; simp at h
  | some tA =>
    cases htb : entTs b with
    | none => rw [hta, htb] at h; simp at h
    | some tB =>
      cases hpa : entPos a with
      | none => rw [hta, htb, hpa] at h; simp at h
      | some pa =>
        cases hpb : entPos b with
        | none => rw [hta, htb, hpa, hpb] at h; simp at h
        | some pb =>
          rw [hta, htb, hpa, hpb] at h
          dsimp only at h
          refine ⟨pa, pb, rfl, rfl, ?_⟩
          intro d hd
          by_cases hts : (tA == (0 : ℚ) || tB == (0 : ℚ)) = true
          · rw [if_pos hts] at h; simp at h
          · rw [if_neg hts] at h
            by_cases hopt : optGt ((distOfPositions dist pa pb).map
                (fun d0 => max (d0 - 2 * trainLength) 0)) (2 * trainLength) = true
            · rw [if_pos hopt] at h; simp at h
            · have hmax : max (d - 2 * trainLength) 0 ≤ 2 * trainLength := by
                by_contra hgt
                push_neg at hgt
                apply hopt
                rw [hd]
                simp only [Option.map_some', optGt]
                exact decide_eq_true hgt
              have h1 : d - 2 * trainLength ≤ 2 * trainLength :=
                le_trans (le_max_left _ _) hmax
              linarith

/-- Symmetry of the lifted distance. -/
theorem distOfPositions_symm (dist : Dist)
    (hsymm : ∀ la lo lb lo', dist la lo lb lo' = dist lb lo' la lo)
    (pa pb : RawPosition) :
    distOfPositions dist pb pa = distOfPositions dist pa pb := by
  rw [distOfPositions, distOfPositions]
  cases pa.latitude <;> cases pa.longitude <;> cases pb.latitude <;> cases pb.longitude <;>
    simp [hsymm]

/-- The candidate filter only keeps members. -/
theorem candidateFilter_subset (now : ℚ) (l : List Entity) :
    ∀ e ∈ candidateFilter now l, e ∈ l := by
  intro e he
  exact List.mem_of_mem_filter (List.mem_of_mem_filter (List.mem_of_mem_filter he))

/-- C5 (amended): provided the distance function is symmetric, no two incoming pairs
    share a vehicle id, and the input entity list identifies entities by their
    (unique) vehicle ids, every pair of the returned pair set whose two vehicles
    appear in the input list with valid positions is within the break threshold:
    surviving pairs passed the break check, and newly detected pairs satisfy the
    adjusted-distance criterion, which bounds the raw distance by 4·trainLength =
    288 m ≤ 2000 m. Without the no-shared-vehicle proviso the claim fails (see the
    counterexample): processing a pair removes its vehicles from the working array,
    so a later pair sharing a vehicle is never distance-checked. -/
theorem c5_amended (dist : Dist) (now : ℚ) (nowIso : String) (raws : List Entity)
    (pairs : List TrainPair)
    (hsymm : ∀ la lo lb lo', dist la lo lb lo' = dist lb lo' la lo)
    (hdisj : List.Pairwise pairsDisjoint pairs)
    (hids : ∀ e ∈ raws, vehId e = some e.id)
    (huniq : ∀ e ∈ raws, ∀ e' ∈ raws, e.id = e'.id → e = e') :
    ∀ p ∈ (checkForTrainPairs dist now nowIso raws pairs).2,
      pairVehiclesValid raws p = true →
      ∀ d, pairLookupDistance dist raws p = some d → d ≤ maxPairDistance := by
  intro p hp hvalid d hd
  have hp' : p ∈ (detectOuter dist nowIso 0
      (candidateFilter now (breakPhase dist pairs raws).2)
      (breakPhase dist pairs raws).1).2 := hp
  rcases detectOuter_pairs_sound dist nowIso
      (candidateFilter now (breakPhase dist pairs raws).2) 0 _ _ (fun e he => he) p hp' with
    hsurv | ⟨x, hx, y, hy, hxy⟩
  · -- surviving incoming pair: it was distance-checked at its own iteration
    have hptodo : p ∈ pairs := breakFold_acc_subset dist pairs pairs raws p hsurv
    exact breakFold_sound dist raws pairs pairs raws hdisj
      (fun q _ => ⟨rfl, rfl⟩) p hptodo hsurv hvalid d hd
  · -- newly detected pair
    obtain ⟨hcrit, rfl⟩ := (tryPair_eq_some dist nowIso x y p).mp hxy
    obtain ⟨pa, pb, hpa, hpb, hbound⟩ := pairCriteria_dist_bound dist x y hcrit
    have hxr : x ∈ raws :=
      breakFold_raws_subset dist pairs pairs raws x (candidateFilter_subset now _ x hx)
    have hyr : y ∈ raws :=
      breakFold_raws_subset dist pairs pairs raws y (candidateFilter_subset now _ y hy)
    have hlx : lookupVeh raws x.id = x.vehicle := lookupVeh_self raws hids huniq x hxr
    have hly : lookupVeh raws y.id = y.vehicle := lookupVeh_self raws hids huniq y hyr
    have hpax : x.vehicle.bind VehiclePos.position = some pa := hpa
    have hpby : y.vehicle.bind VehiclePos.position = some pb := hpb
    have hv : (mkPair dist nowIso x y).vehicleIds = sortPairIds x.id y.id := rfl
    rw [pairLookupDistance, hv] at hd
    by_cases hle : x.id ≤ y.id
    · rw [sortPairIds, if_pos hle] at hd
      simp only [hlx, hly, hpax, hpby] at hd
      have := hbound d hd
      rw [maxPairDistance]
      rw [trainLength] at this
      linarith
    · rw [sortPairIds, if_neg hle] at hd
      simp only [hlx, hly, hpax, hpby] at hd
      rw [distOfPositions_symm dist hsymm] at hd
      have := hbound d hd
      rw [maxPairDistance]
      rw [trainLength] at this
      linarith

/-- Witness for C5 (amended) at a concrete run: the single close pair (A, B) survives
    with distance 0 ≤ 2000. -/
theorem c5_amended_witness :
    pairVehiclesValid [c2EntA, c2EntB] c2Pair = true ∧
    pairLookupDistance distZero [c2EntA, c2EntB] c2Pair = some 0 ∧
    (0 : ℚ) ≤ maxPairDistance := by
  refine ⟨rfl, rfl, ?_⟩
  exact c5_amended distZero 0 "t" [c2EntA, c2EntB] [c2Pair] (fun _ _ _ _ => rfl)
    (by simp) (by decide) (by decide) c2Pair (by rw [c2_run_eval]; simp) rfl 0 rfl

/-! ### Claim C4: the alt-block pass -/

/-- `updateAt` preserves length. -/
theorem updateAt_length {α : Type} (f : α → α) :
    ∀ (l : List α) (i : ℕ), (updateAt i f l).length = l.length := by
  intro l
  induction l with
  | nil => intro i; cases i <;> rfl
  | cons x xs ih =>
    intro i
    cases i with
    | zero => rfl
    | succ n => simp only [updateAt, List.length_cons, ih n]

/-- `updateAt` leaves other positions alone. -/
theorem getElem?_updateAt_ne {α : Type} (f : α → α) :
    ∀ (l : List α) (i j : ℕ), i ≠ j → (updateAt j f l)[i]? = l[i]? := by
  intro l
  induction l with
  | nil => intro i j h; cases j <;> rfl
  | cons x xs ih =>
    intro i j h
    cases j with
    | zero =>
      cases i with
      | zero => exact absurd rfl h
      | succ i' => simp only [updateAt, List.getElem?_cons_succ]
    | succ j' =>
      cases i with
      | zero => simp only [updateAt, List.getElem?_cons_zero]
      | succ i' =>
        simp only [updateAt, List.getElem?_cons_succ]
        exact ih i' j' (by omega)

/-- `updateAt` maps the targeted position. -/
theorem getElem?_updateAt_self {α : Type} (f : α → α) :
    ∀ (l : List α) (j : ℕ), (updateAt j f l)[j]? = (l[j]?).map f := by
  intro l
  induction l with
  | nil => intro j; cases j <;> rfl
  | cons x xs ih =>
    intro j
    cases j with
    | zero => simp only [updateAt, List.getElem?_cons_zero, Option.map_some']
    | succ j' =>
      simp only [updateAt, List.getElem?_cons_succ]
      exact ih j'

/-- Insertion keeps the same elements. -/
theorem insertLe_perm {α : Type} (le : α → α → Bool) (a : α) :
    ∀ l : List α, (insertLe le a l).Perm (a :: l) := by
  intro l
  induction l with
  | nil => exact List.Perm.refl _
  | cons b bs ih =>
    rw [insertLe]
    by_cases h : le a b = true
    · rw [if_pos h]
    · rw [if_neg h]
      exact (ih.cons b).trans (List.Perm.swap a b bs)

/-- The stable sort is a permutation. -/
theorem sortByLe_perm {α : Type} (le : α → α → Bool) :
    ∀ l : List α, (sortByLe le l).Perm l := by
  intro l
  induction l with
  | nil => exact List.Perm.refl _
  | cons a as ih =>
    rw [sortByLe]
    exact (insertLe_perm le a (sortByLe le as)).trans (ih.cons a)

/-- A count is at most one when at most one position can satisfy the predicate. -/
theorem countP_le_one_of_unique {α : Type} (q : α → Bool) :
    ∀ (l : List α) (j : ℕ),
      (∀ i x, i ≠ j → l[i]? = some x → q x = false) → l.countP q ≤ 1 := by
  intro l
  induction l with
  | nil => intro j h; simp [List.countP_nil]
  | cons a as ih =>
    intro j h
    rw [List.countP_cons]
    cases j with
    | zero =>
      have hz : as.countP q = 0 := by
        rw [List.countP_eq_zero]
        intro x hx
        have hq : q x = false := by
          obtain ⟨⟨i, hi⟩, hget⟩ := List.get_of_mem hx
          refine h (i + 1) x (by omega) ?_
          rw [List.getElem?_cons_succ, List.getElem?_eq_getElem hi]
          exact congrArg some hget
        simp [hq]
      rw [hz]
      split <;> omega
    | succ j' =>
      have ha : q a = false := h 0 a (by omega) List.getElem?_cons_zero
      have ht := ih j' (fun i x hi hg => h (i + 1) x (by omega) (by simpa using hg))
      simp only [ha]
      simpa using ht

/-- A count only drops when the update at one position cannot create a satisfier. -/
theorem countP_updateAt_le {α : Type} (f : α → α) (q : α → Bool) :
    ∀ (l : List α) (j : ℕ),
      (∀ x, l[j]? = some x → q (f x) = true → q x = true) →
      (updateAt j f l).countP q ≤ l.countP q := by
  intro l
  induction l with
  | nil => intro j h; cases j <;> exact le_rfl
  | cons a as ih =>
    intro j h
    cases j with
    | zero =>
      have ha := h a List.getElem?_cons_zero
      simp only [updateAt, List.countP_cons]
      have hle : (if q (f a) = true then 1 else 0) ≤ (if q a = true then 1 else 0) := by
        by_cases hq : q (f a) = true
        · rw [if_pos hq, if_pos (ha hq)]
        · rw [if_neg hq]
          split <;> omega
      omega
    | succ j' =>
      simp only [updateAt, List.countP_cons]
      have := ih j' (fun x hx => h x (by simpa using hx))
      omega

/-- Counting with a stronger predicate gives a smaller count. -/
theorem countP_mono_pred {α : Type} (p q : α → Bool) :
    ∀ l : List α, (∀ x ∈ l, q x = true → p x = true) → l.countP q ≤ l.countP p := by
  intro l
  induction l with
  | nil => intro h; exact le_rfl
  | cons a as ih =>
    intro h
    rw [List.countP_cons, List.countP_cons]
    have ht := ih (fun x hx => h x (List.mem_cons_of_mem _ hx))
    by_cases hq : q a = true
    · rw [hq, h a (List.mem_cons_self _ _) hq]; omega
    · have hq' : q a = false := by simpa using hq
      have hz : (if q a = true then 1 else 0) = 0 := by rw [hq']; simp
      rw [hz]
      omega

/-- The number of visible trains (those not on the invisible list) whose
    `currentBlock` is the given block number: the occupancy count of the claim. -/
def visibleCount (st : List TrainInfo × List String) (n : ℤ) : ℕ :=
  st.1.countP (fun t => t.currentBlock == some n && !(st.2.contains t.trainId))

/-- The ids appended to `invisibleTrainIds` by the tail of the assignment loop:
    the truthy (nonempty) ids of the listed trains, in order. -/
def pushIds (l : List (ℕ × TrainInfo)) : List String :=
  (l.filter (fun it => it.2.trainId != "")).map (fun it => it.2.trainId)

/-- Every roster train has a nonempty (truthy) id. -/
def goodIds (roster : List TrainInfo) : Prop :=
  ∀ t ∈ roster, t.trainId ≠ ""

theorem pushIds_cons (it : ℕ × TrainInfo) (l : List (ℕ × TrainInfo)) :
    pushIds (it :: l) =
      if it.2.trainId != "" then it.2.trainId :: pushIds l else pushIds l := by
  by_cases h : (it.2.trainId != "") = true
  · simp [pushIds, List.filter_cons, h]
  · simp only [Bool.not_eq_true] at h
    simp [pushIds, List.filter_cons, h]

theorem mem_pushIds (l : List (ℕ × TrainInfo)) (it : ℕ × TrainInfo)
    (hm : it ∈ l) (h : it.2.trainId ≠ "") : it.2.trainId ∈ pushIds l :=
  List.mem_map.mpr ⟨it, List.mem_filter.mpr ⟨hm, by simp [h]⟩, rfl⟩

theorem contains_append_or (l1 l2 : List String) (x : String) :
    (l1 ++ l2).contains x = (l1.contains x || l2.contains x) := by
  simp [List.contains_eq_any_beq, List.any_append]

/-- An element of an updated list is an old element or the image of one. -/
theorem mem_updateAt {α : Type} (f : α → α) :
    ∀ (l : List α) (j : ℕ) (x : α), x ∈ updateAt j f l → x ∈ l ∨ ∃ y ∈ l, x = f y := by
  intro l
  induction l with
  | nil => intro j x hx; cases j <;> simp [updateAt] at hx
  | cons a as ih =>
    intro j x hx
    cases j with
    | zero =>
      simp only [updateAt] at hx
      rcases List.mem_cons.mp hx with h | h
      · exact Or.inr ⟨a, List.mem_cons_self _ _, h⟩
      · exact Or.inl (List.mem_cons_of_mem _ h)
    | succ j' =>
      simp only [updateAt] at hx
      rcases List.mem_cons.mp hx with h | h
      · exact Or.inl (h ▸ List.mem_cons_self _ _)
      · rcases ih j' x h with h2 | ⟨y, hy, hxy⟩
        · exact Or.inl (List.mem_cons_of_mem _ h2)
        · exact Or.inr ⟨y, List.mem_cons_of_mem _ hy, hxy⟩

theorem goodIds_updateAt (j : ℕ) (g : TrainInfo → TrainInfo)
    (hg : ∀ u, (g u).trainId = u.trainId) (l : List TrainInfo)
    (hl : goodIds l) : goodIds (updateAt j g l) := by
  intro u hu
  rcases mem_updateAt g l j u hu with h1 | ⟨y, hy, hyu⟩
  · exact hl u h1
  · rw [hyu, hg y]; exact hl y hy

/-- From loop index 2 on, the assignment loop only appends the truthy ids of the
    remaining trains to `invisibleTrainIds`. -/
theorem altApply_ge2 (block : TrackBlock) :
    ∀ (s : List (ℕ × TrainInfo)) (k : ℕ) (roster : List TrainInfo)
      (invis : List String), 2 ≤ k →
      altApply block k s (roster, invis) = (roster, invis ++ pushIds s)
  | [], k, roster, invis, _ => by simp [altApply, pushIds]
  | it :: rest, k, roster, invis, hk => by
    have hk0 : (k == 0) = false := by simp; omega
    have hk1 : (k == 1) = false := by simp; omega
    rw [altApply, if_neg (by simp [hk0]), if_neg (by simp [hk1])]
    by_cases hid : (it.2.trainId != "") = true
    · rw [if_pos hid, altApply_ge2 block rest (k + 1) _ _ (by omega),
        pushIds_cons, if_pos hid]
      simp
    · rw [if_neg hid, altApply_ge2 block rest (k + 1) _ _ (by omega),
        pushIds_cons, if_neg hid]

/-- The assignment loop with a truthy `altBlock`: the first sorted train is pinned to
    the main block, the second is moved to the alt block, the rest become invisible. -/
theorem altApply_zero_truthy (block : TrackBlock) (a b : ℕ × TrainInfo)
    (rest : List (ℕ × TrainInfo)) (roster : List TrainInfo) (invis : List String)
    (ht : numTruthyZ block.altBlock = true) :
    altApply block 0 (a :: b :: rest) (roster, invis) =
      (updateAt b.1 (fun t => { t with currentBlock := block.altBlock })
        (updateAt a.1 (fun t => { t with currentBlock := some block.blockNumber }) roster),
       invis ++ pushIds rest) := by
  rw [altApply, if_pos (by simp), altApply, if_neg (by simp), if_pos (by simp [ht])]
  exact altApply_ge2 block rest (0 + 1 + 1) _ _ (by omega)

/-- The assignment loop with a falsy `altBlock`: the first sorted train is pinned to
    the main block and every other train becomes invisible. -/
theorem altApply_zero_falsy (block : TrackBlock) (a b : ℕ × TrainInfo)
    (rest : List (ℕ × TrainInfo)) (roster : List TrainInfo) (invis : List String)
    (ht : numTruthyZ block.altBlock = false) :
    altApply block 0 (a :: b :: rest) (roster, invis) =
      (updateAt a.1 (fun t => { t with currentBlock := some block.blockNumber }) roster,
       invis ++ pushIds (b :: rest)) := by
  rw [altApply, if_pos (by simp), altApply, if_neg (by simp), if_neg (by simp [ht])]
  by_cases hid : (b.2.trainId != "") = true
  · rw [if_pos hid, altApply_ge2 block rest (0 + 1 + 1) _ _ (by omega),
      pushIds_cons, if_pos hid]
    simp
  · rw [if_neg hid, altApply_ge2 block rest (0 + 1 + 1) _ _ (by omega),
      pushIds_cons, if_neg hid]

/-- Dropping the indices of an indexed list leaves a count unchanged. -/
theorem countP_enumFrom {α : Type} (q : α → Bool) :
    ∀ (n : ℕ) (l : List α),
      (List.enumFrom n l).countP (fun it => q it.2) = l.countP q
  | _, [] => rfl
  | n, t :: ts => by
    simp only [List.enumFrom, List.countP_cons, countP_enumFrom q (n + 1) ts]

/-- The candidate list of a block has as many entries as the block has visible
    occupants. -/
theorem altCands_length (st : List TrainInfo × List String) (block : TrackBlock) :
    (altCands st block).length = visibleCount st block.blockNumber := by
  rw [altCands, visibleCount, ← List.countP_eq_length_filter,
    show st.1.enum = List.enumFrom 0 st.1 from rfl,
    countP_enumFrom
      (fun t => t.currentBlock == some block.blockNumber && !(st.2.contains t.trainId))
      0 st.1]

/-- A candidate is a roster entry at its recorded index satisfying the filter. -/
theorem altCands_getElem (st : List TrainInfo × List String) (block : TrackBlock)
    (it : ℕ × TrainInfo) (hm : it ∈ altCands st block) :
    st.1[it.1]? = some it.2 ∧
      (it.2.currentBlock == some block.blockNumber &&
        !(st.2.contains it.2.trainId)) = true := by
  obtain ⟨hmem, hp⟩ := List.mem_filter.mp hm
  exact ⟨List.mk_mem_enum_iff_getElem?.mp hmem, hp⟩

/-- A roster entry satisfying the filter is a candidate. -/
theorem mem_altCands (st : List TrainInfo × List String) (block : TrackBlock)
    (i : ℕ) (x : TrainInfo) (hg : st.1[i]? = some x)
    (hp : (x.currentBlock == some block.blockNumber &&
      !(st.2.contains x.trainId)) = true) :
    (i, x) ∈ altCands st block :=
  List.mem_filter.mpr ⟨List.mk_mem_enum_iff_getElem?.mpr hg, hp⟩

/-- Candidate indices are pairwise distinct. -/
theorem altCands_fst_nodup (st : List TrainInfo × List String) (block : TrackBlock) :
    ((altCands st block).map Prod.fst).Nodup := by
  have h1 : List.Sublist (altCands st block) st.1.enum := List.filter_sublist _
  have h2 : List.Sublist ((altCands st block).map Prod.fst)
      (st.1.enum.map Prod.fst) := h1.map _
  rw [List.enum_map_fst] at h2
  exact (List.nodup_range _).sublist h2

/-- The sorted candidate list keeps its indices pairwise distinct. -/
theorem sorted_fst_nodup (st : List TrainInfo × List String) (block : TrackBlock) :
    ((sortByLe altLe (altCands st block)).map Prod.fst).Nodup :=
  (((sortByLe_perm altLe (altCands st block)).map Prod.fst).nodup_iff).mpr
    (altCands_fst_nodup st block)

/-- A sorted candidate is a candidate. -/
theorem sorted_mem_altCands (st : List TrainInfo × List String) (block : TrackBlock)
    (it : ℕ × TrainInfo) (hm : it ∈ sortByLe altLe (altCands st block)) :
    it ∈ altCands st block :=
  ((sortByLe_perm altLe (altCands st block)).mem_iff).mp hm

/-- A block with more than one visible occupant runs the assignment loop. -/
theorem step_act (st : List TrainInfo × List String) (block : TrackBlock)
    (h : (altCands st block).length > 1) :
    updateAltBlocksStep st block =
      altApply block 0 (sortByLe altLe (altCands st block)) st := by
  simp only [updateAltBlocksStep]
  rw [if_pos h]

/-- A block with at most one visible occupant leaves the state unchanged. -/
theorem step_noop (st : List TrainInfo × List String) (block : TrackBlock)
    (h : ¬ (altCands st block).length > 1) :
    updateAltBlocksStep st block = st := by
  simp only [updateAltBlocksStep]
  rw [if_neg h]

/-- An acting block's sorted candidate list has at least two entries. -/
theorem sorted_decomp (st : List TrainInfo × List String) (block : TrackBlock)
    (h : (altCands st block).length > 1) :
    ∃ a b rest, sortByLe altLe (altCands st block) = a :: b :: rest := by
  have hl : (sortByLe altLe (altCands st block)).length =
      (altCands st block).length := (sortByLe_perm altLe _).length_eq
  obtain ⟨s, hs⟩ : ∃ s, s = sortByLe altLe (altCands st block) := ⟨_, rfl⟩
  rw [← hs] at hl ⊢
  match s, hl with
  | [], hl => simp at hl; omega
  | [a], hl => simp at hl; omega
  | a :: b :: rest, _ => exact ⟨a, b, rest, rfl⟩

theorem band_true_split {a b : Bool} (h : (a && b) = true) : a = true ∧ b = true := by
  cases a <;> cases b <;> simp_all

theorem band_false_split {a b : Bool} (h : (a && b) = false) :
    a = false ∨ b = false := by
  cases a <;> cases b <;> simp_all

theorem band_intro {a b : Bool} (h1 : a = true) (h2 : b = true) : (a && b) = true := by
  simp [h1, h2]

theorem bnot_or_true {a b : Bool} (h : (!(a || b)) = true) :
    a = false ∧ b = false := by
  cases a <;> cases b <;> simp_all

/-- Writing the block a train already occupies back into it changes nothing. -/
theorem setBlock_self (t : TrainInfo) (v : Option ℤ) (h : t.currentBlock = v) :
    { t with currentBlock := v } = t := by
  cases t
  simp_all

/-- One block's pass cannot raise the visible occupancy of a number that is not the
    block's truthy alt block: the loop only rewrites blocks already held, moves one
    train to the alt block and extends the invisible list. -/
theorem step_count_mono (st : List TrainInfo × List String) (block : TrackBlock)
    (n : ℤ) (haltn : numTruthyZ block.altBlock = true → block.altBlock ≠ some n) :
    visibleCount (updateAltBlocksStep st block) n ≤ visibleCount st n := by
  obtain ⟨roster, invis⟩ := st
  by_cases hc : (altCands (roster, invis) block).length > 1
  · obtain ⟨a, b, rest, hs⟩ := sorted_decomp _ block hc
    have ha_mem : a ∈ altCands (roster, invis) block :=
      sorted_mem_altCands _ _ a (by rw [hs]; exact List.mem_cons_self _ _)
    obtain ⟨hag, hap⟩ := altCands_getElem _ _ a ha_mem
    have hcb : a.2.currentBlock = some block.blockNumber := by
      have h1 := (band_true_split hap).1
      simpa using h1
    have hinner : ∀ x : TrainInfo, roster[a.1]? = some x →
        ((fun t => t.currentBlock == some n && !(invis.contains t.trainId))
          ({ x with currentBlock := some block.blockNumber })) = true →
        ((fun t => t.currentBlock == some n && !(invis.contains t.trainId)) x) = true := by
      intro x hx hq
      have hx2 : x = a.2 := Option.some.inj (hx.symm.trans hag)
      subst hx2
      rwa [setBlock_self _ _ hcb] at hq
    rw [step_act _ block hc, hs]
    by_cases ht : numTruthyZ block.altBlock = true
    · rw [altApply_zero_truthy block a b rest roster invis ht]
      simp only [visibleCount]
      refine le_trans (countP_mono_pred
        (fun t => t.currentBlock == some n && !(invis.contains t.trainId)) _ _ ?_) ?_
      · intro x hx hq
        obtain ⟨h1, h2⟩ := band_true_split hq
        rw [contains_append_or] at h2
        obtain ⟨h3, -⟩ := bnot_or_true h2
        exact band_intro h1 (by rw [h3]; rfl)
      · refine le_trans (countP_updateAt_le _ _ _ _ ?_) (countP_updateAt_le _ _ _ _ hinner)
        intro x hx hq
        exfalso
        obtain ⟨h1, -⟩ := band_true_split hq
        have h2 : block.altBlock = some n := by simpa using h1
        exact haltn ht h2
    · have ht' : numTruthyZ block.altBlock = false := by simpa using ht
      rw [altApply_zero_falsy block a b rest roster invis ht']
      simp only [visibleCount]
      refine le_trans (countP_mono_pred _ _ _ ?_) (countP_updateAt_le _ _ _ _ hinner)
      intro x hx hq
      obtain ⟨h1, h2⟩ := band_true_split hq
      rw [contains_append_or] at h2
      obtain ⟨h3, -⟩ := bnot_or_true h2
      exact band_intro h1 (by rw [h3]; rfl)
  · rw [step_noop _ _ hc]

/-- After a block's own pass at most one visible train holds the block's number,
    provided every roster train has a truthy id and the block's alt block is not its
    own number. -/
theorem step_count_own (st : List TrainInfo × List String) (block : TrackBlock)
    (hgood : goodIds st.1) (haltb : block.altBlock ≠ some block.blockNumber) :
    visibleCount (updateAltBlocksStep st block) block.blockNumber ≤ 1 := by
  obtain ⟨roster, invis⟩ := st
  by_cases hc : (altCands (roster, invis) block).length > 1
  · obtain ⟨a, b, rest, hs⟩ := sorted_decomp _ block hc
    rw [step_act _ block hc, hs]
    by_cases ht : numTruthyZ block.altBlock = true
    · rw [altApply_zero_truthy block a b rest roster invis ht]
      simp only [visibleCount]
      refine countP_le_one_of_unique _ _ a.1 ?_
      intro i x hne hg
      by_cases hib : i = b.1
      · subst hib
        rw [getElem?_updateAt_self] at hg
        obtain ⟨y, hy, hxy⟩ := Option.map_eq_some'.mp hg
        subst hxy
        have hbeq : (block.altBlock == some block.blockNumber) = false := by
          simpa using haltb
        simp [hbeq]
      · rw [getElem?_updateAt_ne _ _ _ _ hib, getElem?_updateAt_ne _ _ _ _ hne] at hg
        by_cases hp : (x.currentBlock == some block.blockNumber &&
            !(invis.contains x.trainId)) = true
        · have hmem : (i, x) ∈ altCands (roster, invis) block := mem_altCands _ _ i x hg hp
          have hmem_s : (i, x) ∈ a :: b :: rest := by
            rw [← hs]; exact ((sortByLe_perm altLe _).mem_iff).mpr hmem
          have hrest : (i, x) ∈ rest := by
            rcases List.mem_cons.mp hmem_s with h1 | h1
            · exact absurd (congrArg Prod.fst h1) hne
            · rcases List.mem_cons.mp h1 with h2 | h2
              · exact absurd (congrArg Prod.fst h2) hib
              · exact h2
          have hpush : x.trainId ∈ pushIds rest :=
            mem_pushIds rest (i, x) hrest (hgood x (List.getElem?_mem hg))
          have hcont : ((invis ++ pushIds rest).contains x.trainId) = true :=
            List.elem_eq_true_of_mem (List.mem_append_right _ hpush)
          rw [hcont]; simp
        · rcases band_false_split (Bool.eq_false_iff.mpr hp) with h1 | h1
          · rw [h1]; rfl
          · have h2 : invis.contains x.trainId = true := by simpa using h1
            rw [contains_append_or, h2]; simp
    · have ht' : numTruthyZ block.altBlock = false := by simpa using ht
      rw [altApply_zero_falsy block a b rest roster invis ht']
      simp only [visibleCount]
      refine countP_le_one_of_unique _ _ a.1 ?_
      intro i x hne hg
      rw [getElem?_updateAt_ne _ _ _ _ hne] at hg
      by_cases hp : (x.currentBlock == some block.blockNumber &&
          !(invis.contains x.trainId)) = true
      · have hmem : (i, x) ∈ altCands (roster, invis) block := mem_altCands _ _ i x hg hp
        have hmem_s : (i, x) ∈ a :: b :: rest := by
          rw [← hs]; exact ((sortByLe_perm altLe _).mem_iff).mpr hmem
        have hrest : (i, x) ∈ b :: rest := by
          rcases List.mem_cons.mp hmem_s with h1 | h1
          · exact absurd (congrArg Prod.fst h1) hne
          · exact h1
        have hpush : x.trainId ∈ pushIds (b :: rest) :=
          mem_pushIds _ (i, x) hrest (hgood x (List.getElem?_mem hg))
        have hcont : ((invis ++ pushIds (b :: rest)).contains x.trainId) = true :=
          List.elem_eq_true_of_mem (List.mem_append_right _ hpush)
        rw [hcont]; simp
      · rcases band_false_split (Bool.eq_false_iff.mpr hp) with h1 | h1
        · rw [h1]; rfl
        · have h2 : invis.contains x.trainId = true := by simpa using h1
          rw [contains_append_or, h2]; simp
  · rw [step_noop _ _ hc]
    have hl := altCands_length (roster, invis) block
    omega

/-- A block's pass leaves at most one visible train on its alt number when no train
    was visible there before and the alt number is not the block's own number. -/
theorem step_count_altv (st : List TrainInfo × List String) (block : TrackBlock)
    (av : ℤ) (hav : block.altBlock = some av) (hne : av ≠ block.blockNumber)
    (h0 : visibleCount st av = 0) :
    visibleCount (updateAltBlocksStep st block) av ≤ 1 := by
  obtain ⟨roster, invis⟩ := st
  have hq0 : ∀ x ∈ roster,
      ((x.currentBlock == some av) && !(invis.contains x.trainId)) = false := by
    have h0c : roster.countP
        (fun t => t.currentBlock == some av && !(invis.contains t.trainId)) = 0 := by
      simpa [visibleCount] using h0
    intro x hx
    have h1 := List.countP_eq_zero.mp h0c x hx
    simpa using h1
  by_cases hc : (altCands (roster, invis) block).length > 1
  · obtain ⟨a, b, rest, hs⟩ := sorted_decomp _ block hc
    rw [step_act _ block hc, hs]
    have hnodup := sorted_fst_nodup (roster, invis) block
    rw [hs] at hnodup
    simp only [List.map_cons] at hnodup
    by_cases ht : numTruthyZ block.altBlock = true
    · rw [altApply_zero_truthy block a b rest roster invis ht]
      simp only [visibleCount]
      refine countP_le_one_of_unique _ _ b.1 ?_
      intro i x hne' hg
      by_cases hia : i = a.1
      · subst hia
        rw [getElem?_updateAt_ne _ _ _ _ hne', getElem?_updateAt_self] at hg
        obtain ⟨y, hy, hxy⟩ := Option.map_eq_some'.mp hg
        subst hxy
        have hbeq : ((some block.blockNumber : Option ℤ) == some av) = false := by
          simp
          exact fun h => hne h.symm
        simp [hbeq]
      · rw [getElem?_updateAt_ne _ _ _ _ hne', getElem?_updateAt_ne _ _ _ _ hia] at hg
        have hx0 := hq0 x (List.getElem?_mem hg)
        rcases band_false_split hx0 with h1 | h1
        · rw [h1]; rfl
        · have h2 : invis.contains x.trainId = true := by simpa using h1
          rw [contains_append_or, h2]; simp
    · have ht' : numTruthyZ block.altBlock = false := by simpa using ht
      rw [altApply_zero_falsy block a b rest roster invis ht']
      simp only [visibleCount]
      refine countP_le_one_of_unique _ _ a.1 ?_
      intro i x hne' hg
      rw [getElem?_updateAt_ne _ _ _ _ hne'] at hg
      have hx0 := hq0 x (List.getElem?_mem hg)
      rcases band_false_split hx0 with h1 | h1
      · rw [h1]; rfl
      · have h2 : invis.contains x.trainId = true := by simpa using h1
        rw [contains_append_or, h2]; simp
  · rw [step_noop _ _ hc, h0]
    exact Nat.zero_le 1

/-- With a truthy alt block, the trains ranked two and later by the sort keep their
    roster entries and contribute exactly their truthy ids to `invisibleTrainIds`. -/
theorem step_excess_truthy (st : List TrainInfo × List String) (B : TrackBlock)
    (a b : ℕ × TrainInfo) (rest : List (ℕ × TrainInfo))
    (ht : numTruthyZ B.altBlock = true)
    (hs : sortByLe altLe (altCands st B) = a :: b :: rest) :
    (updateAltBlocksStep st B).2 = st.2 ++ pushIds rest ∧
    ∀ it ∈ rest, ((updateAltBlocksStep st B).1)[it.1]? = st.1[it.1]? := by
  obtain ⟨roster, invis⟩ := st
  have hc : (altCands (roster, invis) B).length > 1 := by
    have hl : (sortByLe altLe (altCands (roster, invis) B)).length =
        (altCands (roster, invis) B).length := (sortByLe_perm altLe _).length_eq
    rw [hs] at hl
    simp at hl
    omega
  have hnodup := sorted_fst_nodup (roster, invis) B
  rw [hs] at hnodup
  simp only [List.map_cons] at hnodup
  obtain ⟨hna, hnodup2⟩ := List.nodup_cons.mp hnodup
  obtain ⟨hnb, -⟩ := List.nodup_cons.mp hnodup2
  rw [step_act _ B hc, hs, altApply_zero_truthy B a b rest roster invis ht]
  refine ⟨rfl, ?_⟩
  intro it hit
  have hitm : it.1 ∈ rest.map Prod.fst := List.mem_map_of_mem _ hit
  have hia : it.1 ≠ a.1 := fun he =>
    hna (by rw [← he]; exact List.mem_cons_of_mem _ hitm)
  have hib : it.1 ≠ b.1 := fun he => hnb (by rw [← he]; exact hitm)
  rw [getElem?_updateAt_ne _ _ _ _ hib, getElem?_updateAt_ne _ _ _ _ hia]

/-- With a falsy alt block, every train but the first sorted one keeps its roster
    entry and contributes exactly its truthy id to `invisibleTrainIds`. -/
theorem step_excess_falsy (st : List TrainInfo × List String) (B : TrackBlock)
    (a b : ℕ × TrainInfo) (rest : List (ℕ × TrainInfo))
    (ht : numTruthyZ B.altBlock = false)
    (hs : sortByLe altLe (altCands st B) = a :: b :: rest) :
    (updateAltBlocksStep st B).2 = st.2 ++ pushIds (b :: rest) ∧
    ∀ it ∈ b :: rest, ((updateAltBlocksStep st B).1)[it.1]? = st.1[it.1]? := by
  obtain ⟨roster, invis⟩ := st
  have hc : (altCands (roster, invis) B).length > 1 := by
    have hl : (sortByLe altLe (altCands (roster, invis) B)).length =
        (altCands (roster, invis) B).length := (sortByLe_perm altLe _).length_eq
    rw [hs] at hl
    simp at hl
    omega
  have hnodup := sorted_fst_nodup (roster, invis) B
  rw [hs] at hnodup
  simp only [List.map_cons] at hnodup
  obtain ⟨hna, -⟩ := List.nodup_cons.mp hnodup
  rw [step_act _ B hc, hs, altApply_zero_falsy B a b rest roster invis ht]
  refine ⟨rfl, ?_⟩
  intro it hit
  have hitm : it.1 ∈ b.1 :: rest.map Prod.fst := by
    have := List.mem_map_of_mem Prod.fst hit
    simpa using this
  have hia : it.1 ≠ a.1 := fun he => hna (by rw [← he]; exact hitm)
  rw [getElem?_updateAt_ne _ _ _ _ hia]

/-- A block's pass never empties a train's id, so truthy ids stay truthy. -/
theorem goodIds_step (st : List TrainInfo × List String) (block : TrackBlock)
    (h : goodIds st.1) : goodIds (updateAltBlocksStep st block).1 := by
  obtain ⟨roster, invis⟩ := st
  by_cases hc : (altCands (roster, invis) block).length > 1
  · obtain ⟨a, b, rest, hs⟩ := sorted_decomp _ block hc
    rw [step_act _ block hc, hs]
    by_cases ht : numTruthyZ block.altBlock = true
    · rw [altApply_zero_truthy block a b rest roster invis ht]
      exact goodIds_updateAt b.1 (fun t => { t with currentBlock := block.altBlock })
        (fun u => rfl) _
        (goodIds_updateAt a.1
          (fun t => { t with currentBlock := some block.blockNumber })
          (fun u => rfl) roster h)
    · rw [altApply_zero_falsy block a b rest roster invis (by simpa using ht)]
      exact goodIds_updateAt a.1
        (fun t => { t with currentBlock := some block.blockNumber })
        (fun u => rfl) roster h
  · rw [step_noop _ _ hc]
    exact h

theorem goodIds_fold :
    ∀ (l : List TrackBlock) (st : List TrainInfo × List String),
      goodIds st.1 → goodIds (List.foldl updateAltBlocksStep st l).1
  | [], _, h => h
  | C :: l, st, h => goodIds_fold l _ (goodIds_step st C h)

/-- Folding the pass over blocks whose truthy alt block is never `n` cannot raise the
    visible occupancy of `n`. -/
theorem fold_count_mono (n : ℤ) :
    ∀ (l : List TrackBlock) (st : List TrainInfo × List String),
      (∀ C ∈ l, numTruthyZ C.altBlock = true → C.altBlock ≠ some n) →
      visibleCount (List.foldl updateAltBlocksStep st l) n ≤ visibleCount st n
  | [], _, _ => le_rfl
  | C :: l, st, h => by
    rw [List.foldl_cons]
    exact le_trans
      (fold_count_mono n l _ (fun D hD => h D (List.mem_cons_of_mem _ hD)))
      (step_count_mono st C n (h C (List.mem_cons_self _ _)))

/-- The two occupancy bounds of claim C4, read off the claim's words: after the
    alt-block pass, each block's number and each block's alt number is held by at
    most one visible train. -/
def c4ClaimHolds (map : List TrackBlock) (st : List TrainInfo × List String) : Prop :=
  (∀ B ∈ map, visibleCount (updateAltBlocks map st) B.blockNumber ≤ 1) ∧
  (∀ B ∈ map, ∀ a, B.altBlock = some a →
    visibleCount (updateAltBlocks map st) a ≤ 1)

def c4Pos : TrackedPosition := ⟨0, 0, 0, none, none⟩

def c4Train (id route : String) (cb : ℤ) : TrainInfo :=
  ⟨id, c4Pos, some cb, none, route, none, none⟩

def c4Block (bn : ℤ) (alt : Option ℤ) : TrackBlock :=
  ⟨bn, none, alt, "", false, [], none⟩

def c4Map : List TrackBlock := [c4Block 300 none, c4Block 200 (some 300)]

def c4St : List TrainInfo × List String :=
  ([c4Train "T1" "A" 300, c4Train "T2" "OUT-OF-SERVICE" 200, c4Train "T3" "A" 200], [])

/-- C4, counterexample: block 200 (altBlock 300) is processed after block 300, and its
    second sorted occupant is moved to currentBlock 300, so two visible trains end the
    pass with currentBlock 300 and the claimed per-block bound fails. -/
theorem c4_counterexample : ¬ c4ClaimHolds c4Map c4St := by
  intro h
  have h1 := h.1 (c4Block 300 none) (List.mem_cons_self _ _)
  have h2 : visibleCount (updateAltBlocks c4Map c4St)
      (c4Block 300 none).blockNumber = 2 := by decide
  omega

/-- C4 (amended): when no block's `altBlock` equals any block's `blockNumber`, the
    defined `altBlock`s are pairwise distinct, no train starts the pass on an
    `altBlock` value, and every roster train has a truthy id, then after the
    alt-block pass at most one visible train holds each block's `blockNumber` and at
    most one visible train holds each defined `altBlock` value; and in each block's
    step the sorted occupants from rank two on (rank one on, when the `altBlock` is
    falsy) keep their roster entries — in particular their `currentBlock` — unchanged
    while exactly their truthy ids are appended to `invisibleTrainIds`. -/
theorem c4_amended (map : List TrackBlock) (st : List TrainInfo × List String)
    (halt_bn : ∀ B ∈ map, ∀ C ∈ map, B.altBlock ≠ some C.blockNumber)
    (halt_pair : map.Pairwise
      (fun B C => B.altBlock.isSome = true → B.altBlock ≠ C.altBlock))
    (hinit : ∀ B ∈ map, ∀ t ∈ st.1,
      B.altBlock.isSome = true → t.currentBlock ≠ B.altBlock)
    (hgood : ∀ t ∈ st.1, t.trainId ≠ "") :
    (∀ B ∈ map, visibleCount (updateAltBlocks map st) B.blockNumber ≤ 1) ∧
    (∀ B ∈ map, ∀ a, B.altBlock = some a →
      visibleCount (updateAltBlocks map st) a ≤ 1) ∧
    (∀ st' B a b rest, numTruthyZ B.altBlock = true →
      sortByLe altLe (altCands st' B) = a :: b :: rest →
      (updateAltBlocksStep st' B).2 = st'.2 ++ pushIds rest ∧
      ∀ it ∈ rest, ((updateAltBlocksStep st' B).1)[it.1]? = st'.1[it.1]?) ∧
    (∀ st' B a b rest, numTruthyZ B.altBlock = false →
      sortByLe altLe (altCands st' B) = a :: b :: rest →
      (updateAltBlocksStep st' B).2 = st'.2 ++ pushIds (b :: rest) ∧
      ∀ it ∈ b :: rest, ((updateAltBlocksStep st' B).1)[it.1]? = st'.1[it.1]?) := by
  refine ⟨?_, ?_,
    fun st' B a b rest ht hsort => step_excess_truthy st' B a b rest ht hsort,
    fun st' B a b rest ht hsort => step_excess_falsy st' B a b rest ht hsort⟩
  · intro B hB
    obtain ⟨l1, l2, hm⟩ := List.append_of_mem hB
    subst hm
    rw [updateAltBlocks, List.foldl_append, List.foldl_cons]
    refine le_trans (fold_count_mono _ l2 _ ?_) ?_
    · intro C hC htr heq
      exact absurd heq
        (halt_bn C (List.mem_append_right _ (List.mem_cons_of_mem _ hC)) B hB)
    · exact step_count_own _ B (goodIds_fold l1 _ hgood) (halt_bn B hB B hB)
  · intro B hB x hx
    obtain ⟨l1, l2, hm⟩ := List.append_of_mem hB
    subst hm
    rw [updateAltBlocks, List.foldl_append, List.foldl_cons]
    obtain ⟨hp1, hp2, hp3⟩ := List.pairwise_append.mp halt_pair
    have hl1 : ∀ C ∈ l1, numTruthyZ C.altBlock = true → C.altBlock ≠ some x := by
      intro C hC _ heq
      have hR := hp3 C hC B (List.mem_cons_self _ _)
      have h2 := hR (by rw [heq]; rfl)
      rw [heq, hx] at h2
      exact h2 rfl
    have hl2 : ∀ C ∈ l2, numTruthyZ C.altBlock = true → C.altBlock ≠ some x := by
      intro C hC _ heq
      have hR := (List.pairwise_cons.mp hp2).1 C hC
      have h2 := hR (by rw [hx]; rfl)
      rw [hx, heq] at h2
      exact h2 rfl
    refine le_trans (fold_count_mono _ l2 _ hl2) ?_
    have hxbn : x ≠ B.blockNumber := by
      intro he
      exact absurd (he ▸ hx) (halt_bn B hB B hB)
    have h0 : visibleCount (List.foldl updateAltBlocksStep st l1) x = 0 := by
      have hstart : visibleCount st x = 0 := by
        rw [visibleCount, List.countP_eq_zero]
        intro t ht
        have hne := hinit B hB t ht (by rw [hx]; rfl)
        rw [hx] at hne
        intro hcontra
        exact hne (by simpa using (band_true_split hcontra).1)
      have hmono := fold_count_mono x l1 st hl1
      omega
    exact step_count_altv _ B x hx hxbn h0

def c4WMap : List TrackBlock := [c4Block 1 (some 10), c4Block 2 (some 20)]

def c4WSt : List TrainInfo × List String :=
  ([c4Train "A1" "OUT-OF-SERVICE" 1, c4Train "A2" "R1" 1, c4Train "A3" "R1" 2], [])

theorem c4_amended_witness :
    (∀ B ∈ c4WMap, visibleCount (updateAltBlocks c4WMap c4WSt) B.blockNumber ≤ 1) ∧
    (∀ B ∈ c4WMap, ∀ a, B.altBlock = some a →
      visibleCount (updateAltBlocks c4WMap c4WSt) a ≤ 1) := by
  have h := c4_amended c4WMap c4WSt (by decide) (by decide) (by decide) (by decide)
  exact ⟨h.1, h.2.1⟩

end LedRails
